import Mathlib

/-!
# InterruptButton — verification of the spec against the code

Shallow embedding of the InterruptButton library (an ESP32 debounced-button
driver).  The repository ships only the header `src/InterruptButton.h`; the
implementation file is absent, so the enumerations, constants, default values
and signatures below are translated from the header, while the behaviour of
the missing member functions (`readButton`, the timer callbacks, `bind`,
`enableEvent`/`disableEvent`, `setMenuCount`, dispatch) is modelled from the
natural-language specification, as noted on each definition.

Time is measured in poll ticks: the poll period is `debounceUS /
m_targetPolls`, so `m_targetPolls` ticks span exactly the configured debounce
duration, and the long-press / auto-repeat / double-click intervals are
expressed in ticks as well.
-/

set_option maxHeartbeats 1000000
set_option linter.unreachableTactic false
set_option linter.unusedTactic false

namespace InterruptButton

/-- Event kinds, translated from `enum events` in `src/InterruptButton.h`
(values 0‥7; `NumEventTypes` is a sentinel, `Event_All` a wildcard). -/
inductive events where
  | Event_KeyDown
  | Event_KeyUp
  | Event_KeyPress
  | Event_LongKeyPress
  | Event_AutoRepeatPress
  | Event_DoubleClick
  | NumEventTypes
  | Event_All
deriving DecidableEq, Repr

/-- Numeric value of each enumerator, as assigned in the header
(`Event_KeyDown = 0`, consecutive thereafter). -/
def events.toNat : events → Nat
  | .Event_KeyDown => 0
  | .Event_KeyUp => 1
  | .Event_KeyPress => 2
  | .Event_LongKeyPress => 3
  | .Event_AutoRepeatPress => 4
  | .Event_DoubleClick => 5
  | .NumEventTypes => 6
  | .Event_All => 7

/-- Dispatch modes, translated from `enum modes` in the header. -/
inductive modes where
  | Mode_Asynchronous
  | Mode_Hybrid
  | Mode_Synchronous
deriving DecidableEq, Repr

/-- Debounce state machine states, translated from the private
`enum buttonStates` in the header. -/
inductive buttonStates where
  | Released
  | ConfirmingPress
  | Pressing
  | Pressed
  | WaitingForRelease
  | Releasing
deriving DecidableEq, Repr

/-- `static const uint8_t m_targetPolls = 10` from the header: number of
agreeing polls required to debounce a transition. -/
def m_targetPolls : Nat := 10

/-- Debouncer sub-state: the state-machine variable `m_state` and the
agreement counter `m_validPolls` from the header. -/
structure DebState where
  state : buttonStates
  validPolls : Nat
deriving DecidableEq, Repr

/-- A confirmed transition produced by the debouncer: key down or key up. -/
inductive KeyEdge where
  | down
  | up
deriving DecidableEq, Repr

/-- Modelled from the spec: the debounce branch of the missing `readButton`
implementation (spec §4.1).  On each poll tick the raw level (here `raw =
true` iff the sample equals the configured pressed polarity) is compared with
the direction being confirmed; `validPolls` increments on agreement and a
confirmed transition is emitted once it reaches `m_targetPolls`.  A
disagreeing sample decrements the counter rather than resetting it (the
spec's "do not restart from zero on a single glitch; tolerate isolated
disagreement, only fail confirmation if disagreement persists"), and
confirmation is abandoned when the counter is exhausted.  The spec describes
one confirming phase per direction, so the `Pressing` and
`WaitingForRelease` sub-states behave as `ConfirmingPress` and `Releasing`
respectively. -/
def dstep (s : DebState) (raw : Bool) : DebState × Option KeyEdge :=
  match s.state with
  | .Released =>
      if raw then (⟨.ConfirmingPress, 1⟩, none) else (⟨.Released, 0⟩, none)
  | .ConfirmingPress | .Pressing =>
      if raw then
        if m_targetPolls ≤ s.validPolls + 1 then (⟨.Pressed, 0⟩, some .down)
        else (⟨.ConfirmingPress, s.validPolls + 1⟩, none)
      else
        if s.validPolls ≤ 1 then (⟨.Released, 0⟩, none)
        else (⟨.ConfirmingPress, s.validPolls - 1⟩, none)
  | .Pressed =>
      if raw then (⟨.Pressed, 0⟩, none) else (⟨.Releasing, 1⟩, none)
  | .WaitingForRelease | .Releasing =>
      if raw then
        if s.validPolls ≤ 1 then (⟨.Pressed, 0⟩, none)
        else (⟨.Releasing, s.validPolls - 1⟩, none)
      else
        if m_targetPolls ≤ s.validPolls + 1 then (⟨.Released, 0⟩, some .up)
        else (⟨.Releasing, s.validPolls + 1⟩, none)

/-- Initial debouncer state: button released, no polls accumulated. -/
def debInit : DebState := ⟨.Released, 0⟩

/-- Add the current (emission-free) sample to the window of the next
emission, if any. -/
def shift1 : List (Nat × KeyEdge) → List (Nat × KeyEdge)
  | [] => []
  | (g, e) :: rest => (g + 1, e) :: rest

/-- The complete emission sequence of the debouncer over a sample list, as
inter-emission gaps: `(g, e)` means the confirmed transition `e` was emitted
after consuming `g` further samples (so `g` is the length of the window of
samples between the previous confirmed transition — or the start of the
list — and this one, inclusive).  Every confirmed transition the debouncer
ever emits appears here, in order. -/
def dGaps : DebState → List Bool → List (Nat × KeyEdge)
  | _, [] => []
  | s, b :: bs =>
      match dstep s b with
      | (s', some e) => (1, e) :: dGaps s' bs
      | (s', none) => shift1 (dGaps s' bs)

/-- The raw level that a transition confirms: pressed for KeyDown, released
for KeyUp. -/
def edgeLevel : KeyEdge → Bool
  | .down => true
  | .up => false

/-- The debounce-latency property of an emission sequence, checked window by
window: starting from a confirmation phase for level `lvl` with `credit`
agreeing polls already accumulated, the next transition confirms `lvl`, its
window contains at least `m_targetPolls - credit` samples at `lvl` and spans
at least `m_targetPolls - credit` poll ticks, and the rest of the sequence
satisfies the property for the opposite level with no credit (counters reset
on every confirmed transition). -/
def debChain : Nat → Bool → List (Nat × KeyEdge) → List Bool → Prop
  | _, _, [], _ => True
  | credit, lvl, (g, e) :: rest, bs =>
      edgeLevel e = lvl ∧
      m_targetPolls ≤ credit + ((bs.take g).count lvl) ∧
      m_targetPolls ≤ credit + g ∧
      debChain 0 (!lvl) rest (bs.drop g)

/-- Prepending an emission-free sample to the input keeps `debChain`, as
long as the credit drops by at most the sample's contribution to the head
window. -/
lemma debChain_shift1 (c c' : Nat) (lvl b : Bool)
    (tr : List (Nat × KeyEdge)) (bs : List Bool)
    (h : debChain c' lvl tr bs)
    (hc : c' ≤ c + (if b = lvl then 1 else 0)) :
    debChain c lvl (shift1 tr) (b :: bs) := by
  rcases tr with _ | ⟨⟨g, e⟩, rest⟩
  · simp [shift1, debChain]
  · obtain ⟨h1, h2, h3, h4⟩ := h
    simp only [shift1, debChain]
    have hdrop : (b :: bs).drop (g + 1) = bs.drop g := rfl
    by_cases hb : b = lvl
    · have hc' : c' ≤ c + 1 := by simpa [hb] using hc
      have hcount : ((b :: bs).take (g + 1)).count lvl
          = (bs.take g).count lvl + 1 := by
        subst hb
        simp [List.count_cons]
      exact ⟨h1, by rw [hcount]; omega, by omega, by rw [hdrop]; exact h4⟩
    · have hc' : c' ≤ c := by simpa [hb] using hc
      have hcount : ((b :: bs).take (g + 1)).count lvl
          = (bs.take g).count lvl := by
        cases b <;> cases lvl <;> simp_all [List.count_cons]
      exact ⟨h1, by rw [hcount]; omega, by omega, by rw [hdrop]; exact h4⟩

/-- Master invariant: from any reachable debouncer state, the emission
sequence satisfies the windowed latency property, with the already
accumulated `validPolls` as head credit while a confirmation is in
progress. -/
lemma dGaps_chain :
    ∀ (bs : List Bool) (st : buttonStates) (v : Nat),
      (st = .Released → debChain 0 true (dGaps ⟨st, v⟩ bs) bs) ∧
      ((st = .ConfirmingPress ∨ st = .Pressing) → 1 ≤ v →
        debChain v true (dGaps ⟨st, v⟩ bs) bs) ∧
      (st = .Pressed → debChain 0 false (dGaps ⟨st, v⟩ bs) bs) ∧
      ((st = .Releasing ∨ st = .WaitingForRelease) → 1 ≤ v →
        debChain v false (dGaps ⟨st, v⟩ bs) bs) := by
  intro bs
  induction bs with
  | nil =>
      intro st v
      refine ⟨?_, ?_, ?_, ?_⟩ <;> intros <;> simp [dGaps, debChain]
  | cons b bs ih =>
      intro st v
      refine ⟨?_, ?_, ?_, ?_⟩
      · rintro rfl
        cases b
        · simp only [dGaps, dstep, Bool.false_eq_true, if_false]
          exact debChain_shift1 0 0 true false _ bs ((ih .Released 0).1 rfl)
            (by omega)
        · simp only [dGaps, dstep, if_true]
          exact debChain_shift1 0 1 true true _ bs
            ((ih .ConfirmingPress 1).2.1 (Or.inl rfl) (by omega)) (by simp)
      · rintro (rfl | rfl) hv <;>
        · cases b
          · by_cases hlow : v ≤ 1
            · simp only [dGaps, dstep, Bool.false_eq_true, if_false,
                if_pos hlow]
              exact debChain_shift1 v 0 true false _ bs
                ((ih .Released 0).1 rfl) (by omega)
            · simp only [dGaps, dstep, Bool.false_eq_true, if_false,
                if_neg hlow]
              exact debChain_shift1 v (v - 1) true false _ bs
                ((ih .ConfirmingPress (v - 1)).2.1 (Or.inl rfl) (by omega))
                (by simp)
          · by_cases hfire : m_targetPolls ≤ v + 1
            · simp only [dGaps, dstep, if_true, if_pos hfire, debChain]
              refine ⟨rfl, ?_, by omega, ?_⟩
              · simp [List.count_cons]
                omega
              · simpa using (ih .Pressed 0).2.2.1 rfl
            · simp only [dGaps, dstep, if_true, if_neg hfire]
              exact debChain_shift1 v (v + 1) true true _ bs
                ((ih .ConfirmingPress (v + 1)).2.1 (Or.inl rfl) (by omega))
                (by simp)
      · rintro rfl
        cases b
        · simp only [dGaps, dstep, Bool.false_eq_true, if_false]
          exact debChain_shift1 0 1 false false _ bs
            ((ih .Releasing 1).2.2.2 (Or.inl rfl) (by omega)) (by simp)
        · simp only [dGaps, dstep, if_true]
          exact debChain_shift1 0 0 false true _ bs
            ((ih .Pressed 0).2.2.1 rfl) (by omega)
      · rintro (rfl | rfl) hv <;>
        · cases b
          · by_cases hfire : m_targetPolls ≤ v + 1
            · simp only [dGaps, dstep, Bool.false_eq_true, if_false,
                if_pos hfire, debChain]
              refine ⟨rfl, ?_, by omega, ?_⟩
              · simp [List.count_cons]
                omega
              · simpa using (ih .Released 0).1 rfl
            · simp only [dGaps, dstep, Bool.false_eq_true, if_false,
                if_neg hfire]
              exact debChain_shift1 v (v + 1) false false _ bs
                ((ih .Releasing (v + 1)).2.2.2 (Or.inl rfl) (by omega))
                (by simp)
          · by_cases hlow : v ≤ 1
            · simp only [dGaps, dstep, if_true, if_pos hlow]
              exact debChain_shift1 v 0 false true _ bs
                ((ih .Pressed 0).2.2.1 rfl) (by omega)
            · simp only [dGaps, dstep, if_true, if_neg hlow]
              exact debChain_shift1 v (v - 1) false true _ bs
                ((ih .Releasing (v - 1)).2.2.2 (Or.inl rfl) (by omega))
                (by simp)

/-- A sample train with a single isolated disagreeing sample (index 4) amid
agreeing samples: confirmation is delayed but not aborted. -/
def glitchSamples : List Bool :=
  [true, true, true, true, false, true, true, true, true, true, true, true]

/-- C1: for every sequence of raw pin-level samples, every confirmed
transition the debouncer emits — KeyDown and KeyUp alike, first or later —
comes only after the new level has been sustained for at least the
configured debounce duration: `dGaps` lists the complete emission sequence,
and `debChain` states that the transitions alternate starting with KeyDown
and that each one's window (the samples since the previous confirmed
transition) contains at least `m_targetPolls = 10` samples at the new level
and spans at least 10 poll ticks — one debounce window — so no event is
emitted while a confirmation is still in progress.  Moreover an isolated
disagreeing sample does not abort confirmation: on `glitchSamples` (one
glitch at index 4) KeyDown is still confirmed, two polls later than the
clean 10-sample confirmation, and a clean press-then-release train yields
exactly the KeyDown and KeyUp, each after a 10-tick window. -/
theorem C1_debounce_confirmation :
    (∀ bs : List Bool, debChain 0 true (dGaps debInit bs) bs) ∧
    dGaps debInit glitchSamples = [(12, .down)] ∧
    dGaps debInit (List.replicate m_targetPolls true) = [(10, .down)] ∧
    dGaps debInit (List.replicate m_targetPolls true ++
      List.replicate m_targetPolls false) = [(10, .down), (10, .up)] := by
  refine ⟨?_, by decide, by decide, by decide⟩
  intro bs
  exact (dGaps_chain bs .Released 0).1 rfl

/-- Witness for C1: the windowed latency property, instantiated on a clean
press-then-release train (which emits a KeyDown and then a KeyUp). -/
theorem C1_debounce_confirmation_witness :
    debChain 0 true
      (dGaps debInit (List.replicate 10 true ++ List.replicate 10 false))
      (List.replicate 10 true ++ List.replicate 10 false) :=
  C1_debounce_confirmation.1
    (List.replicate 10 true ++ List.replicate 10 false)

/-- An emitted logical event together with the menu level it is dispatched
at (the level used for the `eventActions` lookup). -/
abbrev Emit := events × Nat

/-- Per-instance configuration: the event-enable bitmask `eventMask` and the
three timing intervals (long-press threshold `m_longKeyPressMS`, auto-repeat
interval `m_autoRepeatMS`, double-click window `m_doubleClickMS`), expressed
in poll ticks. -/
structure Cfg where
  eventMask : Nat
  longTicks : Nat
  repeatTicks : Nat
  dblTicks : Nat

/-- Modelled from the spec: the missing `eventEnabled` implementation —
"read bitmask and determine if event is enabled" (header comment): test the
bit at the event's enumerator position. -/
def eventEnabledMask (mask : Nat) (e : events) : Bool :=
  Nat.testBit mask e.toNat

/-- Full per-instance dynamic state: the debouncer sub-state plus the three
pending timers (`m_buttonLPandRepeatTimer` split into its long-press and
auto-repeat roles, and `m_buttonDoubleClickTimer`), the double-click pending
flag `m_wtgForDblClick` with its captured menu level
`m_doubleClickMenuLevel`, and the suppress flag
`m_longPress_preventKeyPress`.  A timer holding `some n` fires after `n`
further ticks. -/
structure BtnState where
  deb : DebState
  longTimer : Option Nat
  repeatTimer : Option Nat
  dblTimer : Option Nat
  m_wtgForDblClick : Bool
  m_doubleClickMenuLevel : Nat
  m_longPress_preventKeyPress : Bool
deriving DecidableEq, Repr

/-- Initial instance state at construction: released, no timers pending, no
pending double-click, no suppressed KeyPress. -/
def s0 : BtnState := ⟨debInit, none, none, none, false, 0, false⟩

/-- Modelled from the spec: the timer-expiry callbacks of the missing
implementation (`autoRepeatPressEvent`, `doubleClickTimeout`,
`longPressEvent`, spec §4.2).  Each pending timer counts down one tick; a
timer reaching zero fires: the auto-repeat timer emits `AutoRepeatPress` and
re-arms itself (periodic); the double-click timer emits the deferred single
`KeyPress` at the captured menu level and clears the pending flag; the
long-press timer emits `LongKeyPress`, sets the suppress-next-KeyPress flag
and, if auto-repeat is enabled, starts the periodic auto-repeat timer.
Every emission is gated by the instance's event-enable bitmask.  The three
timer roles are handled by `stepRepeat`, `stepDbl` and `stepLong` in that
fixed order. -/
def stepRepeat (cfg : Cfg) (lvl : Nat) (s : BtnState) : BtnState × List Emit :=
  match s.repeatTimer with
  | none => (s, [])
  | some n =>
      if n ≤ 1 then
        ({ s with repeatTimer := some cfg.repeatTicks },
         if eventEnabledMask cfg.eventMask .Event_AutoRepeatPress then
           [(.Event_AutoRepeatPress, lvl)] else [])
      else ({ s with repeatTimer := some (n - 1) }, [])

/-- Modelled from the spec: the missing `doubleClickTimeout` callback — the
double-click window expires, so the deferred single `KeyPress` is emitted at
the captured menu level and the pending flag cleared. -/
def stepDbl (cfg : Cfg) (s : BtnState) : BtnState × List Emit :=
  match s.dblTimer with
  | none => (s, [])
  | some n =>
      if n ≤ 1 then
        ({ s with dblTimer := none, m_wtgForDblClick := false },
         if eventEnabledMask cfg.eventMask .Event_KeyPress then
           [(.Event_KeyPress, s.m_doubleClickMenuLevel)] else [])
      else ({ s with dblTimer := some (n - 1) }, [])

/-- Modelled from the spec: the missing `longPressEvent` callback — the
long-press threshold elapses while still pressed, so `LongKeyPress` is
emitted, the suppress-next-KeyPress flag set, and (if enabled) periodic
auto-repeat begins. -/
def stepLong (cfg : Cfg) (lvl : Nat) (s : BtnState) : BtnState × List Emit :=
  match s.longTimer with
  | none => (s, [])
  | some n =>
      if n ≤ 1 then
        ({ s with longTimer := none,
                  m_longPress_preventKeyPress :=
                    s.m_longPress_preventKeyPress ||
                      eventEnabledMask cfg.eventMask .Event_LongKeyPress,
                  repeatTimer :=
                    if eventEnabledMask cfg.eventMask .Event_AutoRepeatPress
                    then some cfg.repeatTicks else none },
         if eventEnabledMask cfg.eventMask .Event_LongKeyPress then
           [(.Event_LongKeyPress, lvl)] else [])
      else ({ s with longTimer := some (n - 1) }, [])

/-- One tick of all pending timers (see `stepRepeat`, `stepDbl`,
`stepLong`). -/
def tickTimers (cfg : Cfg) (lvl : Nat) (s : BtnState) : BtnState × List Emit :=
  let (s1, e1) := stepRepeat cfg lvl s
  let (s2, e2) := stepDbl cfg s1
  let (s3, e3) := stepLong cfg lvl s2
  (s3, e1 ++ e2 ++ e3)

/-- Modelled from the spec: the classifier branch of the missing
implementation (spec §4.2), reacting to a confirmed transition.  On KeyDown:
emit `KeyDown` (if enabled) and start the long-press timer.  On KeyUp: emit
`KeyUp` (if enabled) and cancel the long-press/auto-repeat timers; then, if
the suppress flag is set, clear it and emit no KeyPress; otherwise, if a
double-click window is open, close it and emit `DoubleClick` at the captured
menu level (if enabled); otherwise, if double-click detection is enabled,
open a window and capture the current menu level; otherwise emit `KeyPress`
immediately (if enabled). -/
def classify (cfg : Cfg) (lvl : Nat) (s : BtnState) (d : DebState) :
    Option KeyEdge → BtnState × List Emit
  | none => ({ s with deb := d }, [])
  | some .down =>
      ({ s with deb := d,
                longTimer :=
                  if eventEnabledMask cfg.eventMask .Event_LongKeyPress ||
                     eventEnabledMask cfg.eventMask .Event_AutoRepeatPress then
                    some cfg.longTicks else none,
                repeatTimer := none },
       if eventEnabledMask cfg.eventMask .Event_KeyDown then
         [(.Event_KeyDown, lvl)] else [])
  | some .up =>
      let esUp : List Emit :=
        if eventEnabledMask cfg.eventMask .Event_KeyUp then
          [(.Event_KeyUp, lvl)] else []
      if s.m_longPress_preventKeyPress then
        ({ s with deb := d, longTimer := none, repeatTimer := none,
                  m_longPress_preventKeyPress := false }, esUp)
      else if s.m_wtgForDblClick then
        ({ s with deb := d, longTimer := none, repeatTimer := none,
                  m_wtgForDblClick := false, dblTimer := none },
         esUp ++
           (if eventEnabledMask cfg.eventMask .Event_DoubleClick then
             [(.Event_DoubleClick, s.m_doubleClickMenuLevel)] else []))
      else if eventEnabledMask cfg.eventMask .Event_DoubleClick then
        ({ s with deb := d, longTimer := none, repeatTimer := none,
                  m_wtgForDblClick := true, dblTimer := some cfg.dblTicks,
                  m_doubleClickMenuLevel := lvl }, esUp)
      else
        ({ s with deb := d, longTimer := none, repeatTimer := none },
         esUp ++
           (if eventEnabledMask cfg.eventMask .Event_KeyPress then
             [(.Event_KeyPress, lvl)] else []))

/-- One poll tick of the whole instance: pending timers count down and fire,
then the raw sample is debounced and any confirmed transition classified.
The input pairs the raw sample with the process-wide menu level in effect at
that tick. -/
def tick (cfg : Cfg) (s : BtnState) (inp : Bool × Nat) : BtnState × List Emit :=
  let (s1, es1) := tickTimers cfg inp.2 s
  let (d, tr) := dstep s1.deb inp.1
  let (s2, es2) := classify cfg inp.2 s1 d tr
  (s2, es1 ++ es2)

/-- Run the instance over a list of ticks, returning the final state and the
concatenated emission trace. -/
def run (cfg : Cfg) : BtnState → List (Bool × Nat) → BtnState × List Emit
  | s, [] => (s, [])
  | s, x :: xs =>
      let (s1, es) := tick cfg s x
      let (sF, esF) := run cfg s1 xs
      (sF, es ++ esF)

/-- Number of emissions of a given event kind in a trace. -/
def countEv (e : events) (l : List Emit) : Nat :=
  (l.filter (fun p => p.1 = e)).length

lemma run_cons (cfg : Cfg) (s : BtnState) (x : Bool × Nat)
    (xs : List (Bool × Nat)) :
    run cfg s (x :: xs) =
      ((run cfg (tick cfg s x).1 xs).1,
        (tick cfg s x).2 ++ (run cfg (tick cfg s x).1 xs).2) := by
  simp [run]

lemma run_append (cfg : Cfg) (s : BtnState) (xs ys : List (Bool × Nat)) :
    run cfg s (xs ++ ys) =
      ((run cfg (run cfg s xs).1 ys).1,
        (run cfg s xs).2 ++ (run cfg (run cfg s xs).1 ys).2) := by
  induction xs generalizing s with
  | nil => simp [run]
  | cons x xs ih => simp [run_cons, ih]

/-- Running balance scan over a trace for the event-ordering property: `a`
counts confirmed presses whose release has not yet been emitted (KeyDown
minus KeyUp), `b` counts emitted KeyUps whose cycle has not yet been resolved
into a KeyPress or DoubleClick.  The scan returns `none` exactly when some
KeyUp is not preceded by a matching KeyDown, or some KeyPress/DoubleClick is
not preceded by the KeyUp of a cycle it resolves. -/
def evBal : Nat → Nat → List Emit → Option (Nat × Nat)
  | a, b, [] => some (a, b)
  | a, b, (e, _) :: rest =>
      match e with
      | .Event_KeyDown => evBal (a + 1) b rest
      | .Event_KeyUp => if 0 < a then evBal (a - 1) (b + 1) rest else none
      | .Event_KeyPress => if 0 < b then evBal a (b - 1) rest else none
      | .Event_DoubleClick => if 0 < b then evBal a (b - 1) rest else none
      | _ => evBal a b rest

lemma evBal_append :
    ∀ (l m : List Emit) (a b : Nat),
      evBal a b (l ++ m) = (evBal a b l).bind fun p => evBal p.1 p.2 m := by
  intro l
  induction l with
  | nil => intro m a b; simp [evBal]
  | cons x l ih =>
      intro m a b
      obtain ⟨e, lv⟩ := x
      cases e <;> simp only [List.cons_append, evBal] <;>
        first
          | exact ih m _ _
          | (split
             · exact ih m _ _
             · simp)

/-- 1 when the debouncer is on the pressed side of a cycle (a confirmed
KeyDown has been crossed but not yet its KeyUp), 0 otherwise. -/
def cycN : buttonStates → Nat
  | .Pressed => 1
  | .WaitingForRelease => 1
  | .Releasing => 1
  | _ => 0

def inCycle (s : BtnState) : Nat := cycN s.deb.state

/-- 1 when a double-click window is pending (it will later resolve into a
KeyPress or a DoubleClick), 0 otherwise. -/
def pendKP (s : BtnState) : Nat := if s.m_wtgForDblClick then 1 else 0

/-- Invariant tying the balance counters of `evBal` to the instance state. -/
def BalInv (s : BtnState) (a b : Nat) : Prop :=
  a = inCycle s ∧ pendKP s ≤ b ∧ s.m_wtgForDblClick = s.dblTimer.isSome

lemma stepRepeat_evBal (cfg : Cfg) (lvl : Nat) (s : BtnState) (a b : Nat)
    (h : BalInv s a b) :
    evBal a b (stepRepeat cfg lvl s).2 = some (a, b) ∧
      BalInv (stepRepeat cfg lvl s).1 a b := by
  obtain ⟨h1, h2, h3⟩ := h
  unfold stepRepeat
  rcases s.repeatTimer with _ | n
  · exact ⟨by simp [evBal], h1, h2, h3⟩
  · by_cases hn : n ≤ 1 <;>
      simp only [hn, if_true, if_false, reduceIte] <;>
      [skip; exact ⟨by simp [evBal], h1, h2, h3⟩]
    refine ⟨?_, h1, h2, h3⟩
    by_cases he : eventEnabledMask cfg.eventMask .Event_AutoRepeatPress <;>
      simp [he, evBal]

lemma stepDbl_evBal (cfg : Cfg) (s : BtnState) (a b : Nat)
    (h : BalInv s a b) :
    ∃ b', evBal a b (stepDbl cfg s).2 = some (a, b') ∧ b' ≤ b ∧
      BalInv (stepDbl cfg s).1 a b' := by
  obtain ⟨h1, h2, h3⟩ := h
  unfold stepDbl
  rcases hd : s.dblTimer with _ | n
  · exact ⟨b, by simp [evBal], le_rfl, h1, h2, by simp [h3, hd]⟩
  · have hw : s.m_wtgForDblClick = true := by simp [h3, hd]
    have hb : 1 ≤ b := by simpa [pendKP, hw] using h2
    by_cases hn : n ≤ 1
    · simp only [hn, reduceIte]
      by_cases he : eventEnabledMask cfg.eventMask .Event_KeyPress
      · refine ⟨b - 1, ?_, by omega, h1, ?_, by simp⟩
        · simp only [he, reduceIte, evBal]
          rw [if_pos (by omega)]
        · simp [pendKP]
      · refine ⟨b, ?_, le_rfl, h1, ?_, by simp⟩
        · simp [he, evBal]
        · simp [pendKP]
    · simp only [hn, reduceIte]
      exact ⟨b, by simp [evBal], le_rfl, h1, by simpa [pendKP, hw] using hb,
             by simp [hw]⟩

lemma stepLong_evBal (cfg : Cfg) (lvl : Nat) (s : BtnState) (a b : Nat)
    (h : BalInv s a b) :
    evBal a b (stepLong cfg lvl s).2 = some (a, b) ∧
      BalInv (stepLong cfg lvl s).1 a b := by
  obtain ⟨h1, h2, h3⟩ := h
  unfold stepLong
  rcases s.longTimer with _ | n
  · exact ⟨by simp [evBal], h1, h2, h3⟩
  · by_cases hn : n ≤ 1 <;>
      simp only [hn, reduceIte] <;>
      [skip; exact ⟨by simp [evBal], h1, h2, h3⟩]
    refine ⟨?_, h1, h2, h3⟩
    by_cases he : eventEnabledMask cfg.eventMask .Event_LongKeyPress <;>
      simp [he, evBal]

lemma tickTimers_evBal (cfg : Cfg) (lvl : Nat) (s : BtnState) (a b : Nat)
    (h : BalInv s a b) :
    ∃ b', evBal a b (tickTimers cfg lvl s).2 = some (a, b') ∧
      BalInv (tickTimers cfg lvl s).1 a b' := by
  obtain ⟨e1, hr⟩ := stepRepeat_evBal cfg lvl s a b h
  obtain ⟨b', e2, _, hd⟩ := stepDbl_evBal cfg (stepRepeat cfg lvl s).1 a b hr
  obtain ⟨e3, hl⟩ := stepLong_evBal cfg lvl (stepDbl cfg (stepRepeat cfg lvl s).1).1 a b' hd
  refine ⟨b', ?_, hl⟩
  simp [tickTimers, evBal_append, e1, e2, e3]

lemma dstep_cyc (sd : DebState) (raw : Bool) (d : DebState) (tr : Option KeyEdge)
    (h : dstep sd raw = (d, tr)) :
    (tr = none → cycN d.state = cycN sd.state) ∧
    (tr = some .down → cycN sd.state = 0 ∧ cycN d.state = 1) ∧
    (tr = some .up → cycN sd.state = 1 ∧ cycN d.state = 0) := by
  obtain ⟨st, v⟩ := sd
  cases st <;> cases raw <;>
    simp only [dstep, Bool.false_eq_true, if_false, if_true, reduceIte] at h <;>
    first
      | (cases h; simp [cycN])
      | (split at h <;> cases h <;> simp [cycN])
      | (split at h <;> first
          | (cases h; simp [cycN])
          | (split at h <;> cases h <;> simp [cycN]))

lemma classify_evBal (cfg : Cfg)
    (hD : eventEnabledMask cfg.eventMask .Event_KeyDown = true)
    (hU : eventEnabledMask cfg.eventMask .Event_KeyUp = true)
    (lvl : Nat) (s : BtnState) (a b : Nat) (h : BalInv s a b)
    (raw : Bool) (d : DebState) (tr : Option KeyEdge)
    (hdt : dstep s.deb raw = (d, tr)) :
    ∃ a' b', evBal a b (classify cfg lvl s d tr).2 = some (a', b') ∧
      BalInv (classify cfg lvl s d tr).1 a' b' := by
  obtain ⟨h1, h2, h3⟩ := h
  obtain ⟨hcN, hcD, hcU⟩ := dstep_cyc s.deb raw d tr hdt
  rcases tr with _ | edge
  · refine ⟨a, b, by simp [classify, evBal], ?_, ?_, ?_⟩
    · simp only [classify]
      simp only [inCycle] at h1 ⊢
      simp [hcN rfl, h1]
    · simpa [classify, pendKP] using h2
    · simp [classify, h3]
  · cases edge
    · -- confirmed KeyDown
      obtain ⟨hz, ho⟩ := hcD rfl
      refine ⟨a + 1, b, ?_, ?_⟩
      · simp [classify, hD, evBal]
      · refine ⟨?_, h2, h3⟩
        simp only [inCycle, classify, ho]
        simp only [inCycle] at h1
        omega
    · -- confirmed KeyUp
      obtain ⟨ho, hz⟩ := hcU rfl
      have ha : a = 1 := by simp [h1, inCycle, ho]
      subst ha
      by_cases hsup : s.m_longPress_preventKeyPress
      · refine ⟨0, b + 1, ?_, ?_⟩
        · simp [classify, hsup, hU, evBal]
        · exact ⟨by simp [inCycle, classify, hsup, hz],
            by simp only [classify, hsup, reduceIte]; exact Nat.le_succ_of_le h2,
            by simp [classify, hsup, h3]⟩
      · by_cases hw : s.m_wtgForDblClick
        · by_cases hdbl : eventEnabledMask cfg.eventMask .Event_DoubleClick
          · refine ⟨0, b, ?_, ?_⟩
            · simp [classify, hsup, hw, hdbl, hU, evBal]
            · exact ⟨by simp [inCycle, classify, hsup, hw, hdbl, hz],
                by simp [classify, hsup, hw, hdbl, pendKP],
                by simp [classify, hsup, hw, hdbl]⟩
          · refine ⟨0, b + 1, ?_, ?_⟩
            · simp [classify, hsup, hw, hdbl, hU, evBal]
            · exact ⟨by simp [inCycle, classify, hsup, hw, hdbl, hz],
                by simp [classify, hsup, hw, hdbl, pendKP],
                by simp [classify, hsup, hw, hdbl]⟩
        · by_cases hdbl : eventEnabledMask cfg.eventMask .Event_DoubleClick
          · refine ⟨0, b + 1, ?_, ?_⟩
            · simp [classify, hsup, hw, hdbl, hU, evBal]
            · exact ⟨by simp [inCycle, classify, hsup, hw, hdbl, hz],
                by simp [classify, hsup, hw, hdbl, pendKP],
                by simp [classify, hsup, hw, hdbl]⟩
          · have hdn : s.dblTimer = none := by
              rw [← Option.not_isSome_iff_eq_none, ← h3]
              simpa using hw
            by_cases hkp : eventEnabledMask cfg.eventMask .Event_KeyPress
            · refine ⟨0, b, ?_, ?_⟩
              · simp [classify, hsup, hw, hdbl, hkp, hU, evBal]
              · exact ⟨by simp [inCycle, classify, hsup, hw, hdbl, hz],
                  by simp [classify, hsup, hw, hdbl, pendKP],
                  by simp [classify, hsup, hw, hdbl, hdn]⟩
            · refine ⟨0, b + 1, ?_, ?_⟩
              · simp [classify, hsup, hw, hdbl, hkp, hU, evBal]
              · exact ⟨by simp [inCycle, classify, hsup, hw, hdbl, hz],
                  by simp [classify, hsup, hw, hdbl, pendKP],
                  by simp [classify, hsup, hw, hdbl, hdn]⟩

lemma tick_evBal (cfg : Cfg)
    (hD : eventEnabledMask cfg.eventMask .Event_KeyDown = true)
    (hU : eventEnabledMask cfg.eventMask .Event_KeyUp = true)
    (s : BtnState) (x : Bool × Nat) (a b : Nat) (h : BalInv s a b) :
    ∃ a' b', evBal a b (tick cfg s x).2 = some (a', b') ∧
      BalInv (tick cfg s x).1 a' b' := by
  obtain ⟨b1, e1, h1⟩ := tickTimers_evBal cfg x.2 s a b h
  rcases hdt : dstep (tickTimers cfg x.2 s).1.deb x.1 with ⟨d, tr⟩
  obtain ⟨a', b', e2, h2⟩ :=
    classify_evBal cfg hD hU x.2 (tickTimers cfg x.2 s).1 a b1 h1 x.1 d tr hdt
  refine ⟨a', b', ?_, ?_⟩
  · simp [tick, hdt, evBal_append, e1, e2]
  · simpa [tick, hdt] using h2

lemma run_evBal (cfg : Cfg)
    (hD : eventEnabledMask cfg.eventMask .Event_KeyDown = true)
    (hU : eventEnabledMask cfg.eventMask .Event_KeyUp = true) :
    ∀ (inp : List (Bool × Nat)) (s : BtnState) (a b : Nat), BalInv s a b →
      ∃ a' b', evBal a b (run cfg s inp).2 = some (a', b') ∧
        BalInv (run cfg s inp).1 a' b' := by
  intro inp
  induction inp with
  | nil => intro s a b h; exact ⟨a, b, by simp [run, evBal], h⟩
  | cons x xs ih =>
      intro s a b h
      obtain ⟨a1, b1, e1, h1⟩ := tick_evBal cfg hD hU s x a b h
      obtain ⟨a', b', e2, h2⟩ := ih (tick cfg s x).1 a1 b1 h1
      refine ⟨a', b', ?_, ?_⟩
      · simp [run_cons, evBal_append, e1, e2]
      · simpa [run_cons] using h2

/-- C2: in every trace produced from a fresh instance (with KeyDown and
KeyUp emission enabled), KeyDown is emitted before KeyUp for each confirmed
press cycle, and every KeyPress or DoubleClick is emitted only after the
KeyUp of a cycle it resolves, never before it: the balance scan `evBal`
(which fails on any Up-before-Down or Press/DoubleClick-before-Up) succeeds
on the whole trace. -/
theorem C2_event_ordering (cfg : Cfg)
    (hD : eventEnabledMask cfg.eventMask .Event_KeyDown = true)
    (hU : eventEnabledMask cfg.eventMask .Event_KeyUp = true)
    (inp : List (Bool × Nat)) :
    (evBal 0 0 (run cfg s0 inp).2).isSome = true := by
  obtain ⟨a', b', e, _⟩ :=
    run_evBal cfg hD hU inp s0 0 0
      ⟨by simp [inCycle, s0, debInit, cycN], by simp [pendKP, s0], by simp [s0]⟩
  simp [e]

/-- Witness for C2: the default mask 135 enables KeyDown and KeyUp, and the
scan succeeds on the trace of a concrete press-release-press-release train.
-/
theorem C2_event_ordering_witness :
    (eventEnabledMask 135 .Event_KeyDown = true) ∧
    (eventEnabledMask 135 .Event_KeyUp = true) ∧
    (evBal 0 0 (run ⟨135, 40, 12, 15⟩ s0
      ((List.replicate 10 (true, 0) ++ List.replicate 10 (false, 0)) ++
       (List.replicate 10 (true, 0) ++ List.replicate 30 (false, 0)))).2).isSome
      = true :=
  ⟨by decide, by decide,
    C2_event_ordering ⟨135, 40, 12, 15⟩ (by decide) (by decide) _⟩

/-- The two delivery queues of the DispatchBridge: the RTOS queue serviced
by the dedicated task (`asyncEventQueue`) and the static array queue drained
by `processSyncEvents` (`syncEventQueue`). -/
inductive QueueKind where
  | asyncQueue
  | syncQueue
deriving DecidableEq, Repr

/-- Modelled from the spec: routing of a resolved action by the active
dispatch mode (spec §4.4): Asynchronous sends everything to the RTOS queue,
Synchronous everything to the static queue, and Hybrid sends KeyDown/KeyUp
to the RTOS queue and the rest to the static queue. -/
def route (m : modes) (e : events) : QueueKind :=
  match m with
  | .Mode_Asynchronous => .asyncQueue
  | .Mode_Synchronous => .syncQueue
  | .Mode_Hybrid =>
      if e = .Event_KeyDown ∨ e = .Event_KeyUp then .asyncQueue
      else .syncQueue

/-- Modelled from the spec: the missing `action` dispatch path — each
emitted event is resolved through the action table at its emission menu
level; bound actions are handed to the queue selected by the mode in effect
at that point.  `msched` gives the mode in effect when the `i`-th event of
the trace is dispatched, so runtime `setMode` changes are arbitrary. -/
def dispatchRun (cfg : Cfg) (table : events → Nat → Option Nat)
    (msched : Nat → modes) (inp : List (Bool × Nat)) :
    List (Nat × QueueKind) :=
  ((run cfg s0 inp).2.enum).filterMap fun p =>
    (table p.2.1 p.2.2).map fun act => (act, route (msched p.1) p.2.1)

/-- C5: the dispatch mode — even when changed arbitrarily at runtime between
deliveries — never changes which events are detected or which actions they
resolve to: for every input sample sequence and any two mode schedules, the
dispatched action sequences are identical (a fortiori equal as multisets);
only the queue component of each entry can differ. -/
theorem C5_mode_independence (cfg : Cfg) (table : events → Nat → Option Nat)
    (msched msched' : Nat → modes) (inp : List (Bool × Nat)) :
    (dispatchRun cfg table msched inp).map Prod.fst =
      (dispatchRun cfg table msched' inp).map Prod.fst := by
  simp only [dispatchRun, List.map_filterMap]
  congr 1
  funext p
  cases table p.2.1 p.2.2 <;> simp

/-- Per-instance action table and event-enable bitmask, as declared in the
header: `eventActions` is the 2-D table (event kind × menu level, `none` for
an unbound cell) and `eventMask` the enable bitmask. -/
structure ActionTable where
  eventActions : events → Nat → Option Nat
  eventMask : Nat

/-- The header's member default values: `eventActions = nullptr` (no cell
bound) and `eventMask = 0b0000010000111`. -/
def initialTable : ActionTable := ⟨fun _ _ => none, 0b0000010000111⟩

/-- `eventEnabled` on an instance: read the bitmask at the event's bit. -/
def eventEnabled (t : ActionTable) (e : events) : Bool :=
  eventEnabledMask t.eventMask e

/-- Set bit `i` of a mask. -/
def setBit (m i : Nat) : Nat := m ||| 2 ^ i

/-- Clear bit `i` of a mask. -/
def clearBit (m i : Nat) : Nat := if m.testBit i then m ^^^ 2 ^ i else m

/-- The six real event kinds (everything below `NumEventTypes`). -/
def realEvents : List events :=
  [.Event_KeyDown, .Event_KeyUp, .Event_KeyPress,
   .Event_LongKeyPress, .Event_AutoRepeatPress, .Event_DoubleClick]

/-- Modelled from the spec: the missing `enableEvent` implementation —
update the per-instance bitmask; `Event_All` affects all real event kinds
simultaneously (spec §4.3). -/
def enableEvent (t : ActionTable) (e : events) : ActionTable :=
  match e with
  | .Event_All =>
      { t with eventMask :=
          realEvents.foldl (fun m ev => setBit m ev.toNat) t.eventMask }
  | _ => { t with eventMask := setBit t.eventMask e.toNat }

/-- Modelled from the spec: the missing `disableEvent` implementation —
update the per-instance bitmask only; `Event_All` affects all real event
kinds simultaneously (spec §4.3). -/
def disableEvent (t : ActionTable) (e : events) : ActionTable :=
  match e with
  | .Event_All =>
      { t with eventMask :=
          realEvents.foldl (fun m ev => clearBit m ev.toNat) t.eventMask }
  | _ => { t with eventMask := clearBit t.eventMask e.toNat }

/-- Modelled from the spec: the missing `bind` implementation — register the
action for `(event, menuLevel)`; binding LongKeyPress, AutoRepeatPress or
DoubleClick automatically sets that kind's enable bit (header comment on
`eventMask`; spec §4.2). -/
def bind (t : ActionTable) (e : events) (menuLevel : Nat) (action : Nat) :
    ActionTable :=
  { eventActions := fun ev lv =>
      if ev = e ∧ lv = menuLevel then some action else t.eventActions ev lv,
    eventMask :=
      if e = .Event_LongKeyPress ∨ e = .Event_AutoRepeatPress ∨
         e = .Event_DoubleClick
      then setBit t.eventMask e.toNat else t.eventMask }

lemma testBit_setBit_self (m i : Nat) : (setBit m i).testBit i = true := by
  simp [setBit, Nat.testBit_or]

lemma testBit_clearBit_self (m i : Nat) : (clearBit m i).testBit i = false := by
  unfold clearBit
  by_cases h : m.testBit i <;> simp [h, Nat.testBit_xor]

lemma setBit_clearBit (m i : Nat) (h : m.testBit i = true) :
    setBit (clearBit m i) i = m := by
  unfold clearBit setBit
  rw [if_pos h]
  apply Nat.eq_of_testBit_eq
  intro j
  by_cases hj : j = i
  · subst hj
    simp [Nat.testBit_or, Nat.testBit_xor, h]
  · have : decide (i = j) = false := by
      simp
      omega
    simp [Nat.testBit_or, Nat.testBit_xor, Nat.testBit_two_pow, this]

/-- C7: binding any action for LongKeyPress, AutoRepeatPress or DoubleClick
sets that kind's enable bit as a side effect of `bind` alone — no
`enableEvent` call occurs — and the action is registered in the table. -/
theorem C7_bind_autoenables (t : ActionTable) (e : events) (menuLevel : Nat)
    (action : Nat)
    (he : e = .Event_LongKeyPress ∨ e = .Event_AutoRepeatPress ∨
          e = .Event_DoubleClick) :
    eventEnabled (bind t e menuLevel action) e = true ∧
    (bind t e menuLevel action).eventActions e menuLevel = some action := by
  constructor
  · simp only [eventEnabled, eventEnabledMask, bind, if_pos he]
    exact testBit_setBit_self _ _
  · simp [bind]

/-- Witness for C7: binding a DoubleClick action on a fresh instance flips
its (initially cleared) enable bit. -/
theorem C7_bind_autoenables_witness :
    ((.Event_DoubleClick : events) = .Event_LongKeyPress ∨
     (.Event_DoubleClick : events) = .Event_AutoRepeatPress ∨
     (.Event_DoubleClick : events) = .Event_DoubleClick) ∧
    (eventEnabled (bind initialTable .Event_DoubleClick 0 42) .Event_DoubleClick
       = true ∧
     (bind initialTable .Event_DoubleClick 0 42).eventActions .Event_DoubleClick 0
       = some 42) :=
  ⟨by simp,
   C7_bind_autoenables initialTable .Event_DoubleClick 0 42 (by simp)⟩

lemma stepRepeat_emit_enabled (cfg : Cfg) (lvl : Nat) (s : BtnState)
    (p : Emit) (hp : p ∈ (stepRepeat cfg lvl s).2) :
    eventEnabledMask cfg.eventMask p.1 = true := by
  unfold stepRepeat at hp
  rcases hr : s.repeatTimer with _ | n <;> rw [hr] at hp
  · simp at hp
  · by_cases hn : n ≤ 1 <;> simp only [hn, reduceIte] at hp
    · by_cases he : eventEnabledMask cfg.eventMask .Event_AutoRepeatPress <;>
        simp only [he, reduceIte] at hp
      · rw [List.mem_singleton] at hp
        subst hp
        exact he
      · simp at hp
    · simp at hp

lemma stepDbl_emit_enabled (cfg : Cfg) (s : BtnState)
    (p : Emit) (hp : p ∈ (stepDbl cfg s).2) :
    eventEnabledMask cfg.eventMask p.1 = true := by
  unfold stepDbl at hp
  rcases hr : s.dblTimer with _ | n <;> rw [hr] at hp
  · simp at hp
  · by_cases hn : n ≤ 1 <;> simp only [hn, reduceIte] at hp
    · by_cases he : eventEnabledMask cfg.eventMask .Event_KeyPress <;>
        simp only [he, reduceIte] at hp
      · rw [List.mem_singleton] at hp
        subst hp
        exact he
      · simp at hp
    · simp at hp

lemma stepLong_emit_enabled (cfg : Cfg) (lvl : Nat) (s : BtnState)
    (p : Emit) (hp : p ∈ (stepLong cfg lvl s).2) :
    eventEnabledMask cfg.eventMask p.1 = true := by
  unfold stepLong at hp
  rcases hr : s.longTimer with _ | n <;> rw [hr] at hp
  · simp at hp
  · by_cases hn : n ≤ 1 <;> simp only [hn, reduceIte] at hp
    · by_cases he : eventEnabledMask cfg.eventMask .Event_LongKeyPress <;>
        simp only [he, reduceIte] at hp
      · rw [List.mem_singleton] at hp
        subst hp
        exact he
      · simp at hp
    · simp at hp

lemma mem_ite_singleton {c : Bool} {x p : Emit}
    (hp : p ∈ (if c = true then [x] else [])) : c = true ∧ p = x := by
  by_cases hc : c = true <;> simp [hc] at hp
  exact ⟨hc, hp⟩

lemma classify_emit_enabled (cfg : Cfg) (lvl : Nat) (s : BtnState)
    (d : DebState) (tr : Option KeyEdge)
    (p : Emit) (hp : p ∈ (classify cfg lvl s d tr).2) :
    eventEnabledMask cfg.eventMask p.1 = true := by
  rcases tr with _ | edge
  · simp [classify] at hp
  · cases edge
    · simp only [classify] at hp
      obtain ⟨hc, hpx⟩ := mem_ite_singleton hp
      subst hpx; exact hc
    · simp only [classify] at hp
      by_cases hsup : s.m_longPress_preventKeyPress <;>
        simp only [hsup, reduceIte] at hp
      · obtain ⟨hc, hpx⟩ := mem_ite_singleton hp
        subst hpx; exact hc
      · by_cases hw : s.m_wtgForDblClick <;> simp only [hw, reduceIte] at hp
        · rcases List.mem_append.mp hp with hp | hp
          · obtain ⟨hc, hpx⟩ := mem_ite_singleton hp
            subst hpx; exact hc
          · obtain ⟨hc, hpx⟩ := mem_ite_singleton hp
            subst hpx; exact hc
        · by_cases hdbl : eventEnabledMask cfg.eventMask .Event_DoubleClick <;>
            simp only [hdbl, reduceIte] at hp
          · obtain ⟨hc, hpx⟩ := mem_ite_singleton hp
            subst hpx; exact hc
          · rcases List.mem_append.mp hp with hp | hp
            · obtain ⟨hc, hpx⟩ := mem_ite_singleton hp
              subst hpx; exact hc
            · obtain ⟨hc, hpx⟩ := mem_ite_singleton hp
              subst hpx; exact hc

lemma tickTimers_emit_enabled (cfg : Cfg) (lvl : Nat) (s : BtnState)
    (p : Emit) (hp : p ∈ (tickTimers cfg lvl s).2) :
    eventEnabledMask cfg.eventMask p.1 = true := by
  rcases h1 : stepRepeat cfg lvl s with ⟨s1, e1⟩
  rcases h2 : stepDbl cfg s1 with ⟨s2, e2⟩
  rcases h3 : stepLong cfg lvl s2 with ⟨s3, e3⟩
  simp only [tickTimers, h1, h2, h3] at hp
  rcases List.mem_append.mp hp with hp | hp
  · rcases List.mem_append.mp hp with hp | hp
    · exact stepRepeat_emit_enabled cfg lvl s p (by rw [h1]; exact hp)
    · exact stepDbl_emit_enabled cfg s1 p (by rw [h2]; exact hp)
  · exact stepLong_emit_enabled cfg lvl s2 p (by rw [h3]; exact hp)

lemma tick_emit_enabled (cfg : Cfg) (s : BtnState) (x : Bool × Nat)
    (p : Emit) (hp : p ∈ (tick cfg s x).2) :
    eventEnabledMask cfg.eventMask p.1 = true := by
  rcases htt : tickTimers cfg x.2 s with ⟨s1, es1⟩
  rcases hdt : dstep s1.deb x.1 with ⟨d, tr⟩
  simp only [tick, htt, hdt] at hp
  rcases List.mem_append.mp hp with hp | hp
  · exact tickTimers_emit_enabled cfg x.2 s p (by rw [htt]; exact hp)
  · exact classify_emit_enabled cfg x.2 s1 d tr p hp

lemma run_emit_enabled (cfg : Cfg) :
    ∀ (inp : List (Bool × Nat)) (s : BtnState) (p : Emit),
      p ∈ (run cfg s inp).2 → eventEnabledMask cfg.eventMask p.1 = true := by
  intro inp
  induction inp with
  | nil => intro s p hp; simp [run] at hp
  | cons x xs ih =>
      intro s p hp
      rw [run_cons] at hp
      rcases List.mem_append.mp hp with hp | hp
      · exact tick_emit_enabled cfg s x p hp
      · exact ih (tick cfg s x).1 p hp

/-- C8: `disableEvent(kind)` modifies only the per-instance enable bitmask:
every cell of the action table (including the binding for that kind) is left
unchanged; the kind's enable bit is cleared, so a run using the resulting
mask emits (hence dispatches) no event of that kind; and if the bit was
previously set, a subsequent `enableEvent` restores the instance exactly, so
the previously bound action dispatches again without re-binding. -/
theorem C8_disableEvent_frame (t : ActionTable) (e : events)
    (he : e ≠ .Event_All) :
    (disableEvent t e).eventActions = t.eventActions ∧
    eventEnabled (disableEvent t e) e = false ∧
    (∀ (cfg : Cfg) (inp : List (Bool × Nat)),
        cfg.eventMask = (disableEvent t e).eventMask →
        countEv e (run cfg s0 inp).2 = 0) ∧
    (eventEnabled t e = true → enableEvent (disableEvent t e) e = t) := by
  have hdis : disableEvent t e =
      { t with eventMask := clearBit t.eventMask e.toNat } := by
    cases e <;> first | rfl | exact absurd rfl he
  have hen : ∀ t', enableEvent t' e =
      { t' with eventMask := setBit t'.eventMask e.toNat } := by
    intro t'
    cases e <;> first | rfl | exact absurd rfl he
  refine ⟨by rw [hdis], ?_, ?_, ?_⟩
  · rw [hdis]
    simp only [eventEnabled, eventEnabledMask]
    exact testBit_clearBit_self _ _
  · intro cfg inp hm
    rw [countEv, List.length_eq_zero, List.filter_eq_nil_iff]
    intro p hp
    have hen' := run_emit_enabled cfg inp s0 p hp
    simp only [decide_eq_true_eq]
    intro hpe
    rw [hpe, hm, hdis] at hen'
    simp only [eventEnabledMask] at hen'
    rw [testBit_clearBit_self] at hen'
    exact Bool.false_ne_true hen'
  · intro hset
    rw [hdis, hen]
    cases t with
    | mk acts m =>
        simp only
        rw [setBit_clearBit]
        exact hset

/-- Witness for C8: disabling DoubleClick on an instance where it was just
bound (and thereby enabled) leaves every table cell bound as before,
prevents all DoubleClick emission, and re-enabling restores the instance. -/
theorem C8_disableEvent_frame_witness :
    ((events.Event_DoubleClick : events) ≠ .Event_All) ∧
    ((disableEvent (bind initialTable .Event_DoubleClick 0 42)
        .Event_DoubleClick).eventActions =
      (bind initialTable .Event_DoubleClick 0 42).eventActions ∧
     eventEnabled (disableEvent (bind initialTable .Event_DoubleClick 0 42)
        .Event_DoubleClick) .Event_DoubleClick = false ∧
     (∀ (cfg : Cfg) (inp : List (Bool × Nat)),
        cfg.eventMask = (disableEvent (bind initialTable .Event_DoubleClick 0 42)
          .Event_DoubleClick).eventMask →
        countEv .Event_DoubleClick (run cfg s0 inp).2 = 0) ∧
     (eventEnabled (bind initialTable .Event_DoubleClick 0 42)
        .Event_DoubleClick = true →
      enableEvent (disableEvent (bind initialTable .Event_DoubleClick 0 42)
        .Event_DoubleClick) .Event_DoubleClick =
        bind initialTable .Event_DoubleClick 0 42)) :=
  ⟨by simp,
   C8_disableEvent_frame (bind initialTable .Event_DoubleClick 0 42)
     .Event_DoubleClick (by simp)⟩

/-- Process-wide menu bookkeeping from the header: `m_numMenus`,
`m_menuLevel` and the `m_firstButtonInitialised` latch that "blocks any
further changes to m_numMenus". -/
structure MenuState where
  m_numMenus : Nat
  m_menuLevel : Nat
  m_firstButtonInitialised : Bool
deriving DecidableEq, Repr

/-- Modelled from the spec: the missing `setMenuCount` implementation — the
menu count "can only be done before intialising first button" (header
comment), so once `m_firstButtonInitialised` is latched the call is a no-op.
The header declares the member `static void setMenuCount(uint8_t)`, so the
value handed back to the caller is the unit value, carried explicitly here
as the second component to reason about what a caller can observe. -/
def setMenuCount (n : Nat) (s : MenuState) : MenuState × Unit :=
  (if s.m_firstButtonInitialised then s else { s with m_numMenus := n }, ())

/-- C9 counterexample: the claim that the rejection of a post-construction
`setMenuCount` is "reported to the caller via a boolean/result" is false on
the code: the header's `setMenuCount` returns `void`, so at the concrete
input `n = 5` the rejected call (latch set, count stays 1) hands the caller
exactly the same value as an accepted call (count becomes 5) — nothing
distinguishes rejection at the call site. -/
theorem C9_setMenuCount_counterexample :
    (setMenuCount 5 ⟨1, 0, true⟩).1.m_numMenus = 1 ∧
    (setMenuCount 5 ⟨1, 0, false⟩).1.m_numMenus = 5 ∧
    (setMenuCount 5 ⟨1, 0, true⟩).2 = (setMenuCount 5 ⟨1, 0, false⟩).2 := by
  constructor
  · rfl
  · constructor
    · rfl
    · rfl

/-- C9 amended: once any button instance has been constructed
(`m_firstButtonInitialised` latched), every subsequent `setMenuCount` call
leaves the process-wide menu state entirely unchanged — but the rejection is
silent: the `void` return gives the caller the same unit value an accepted
call yields, so no boolean/result reports it. -/
theorem C9_setMenuCount_noop (n : Nat) (s : MenuState)
    (h : s.m_firstButtonInitialised = true) :
    (setMenuCount n s).1 = s ∧
    (setMenuCount n s).2 =
      (setMenuCount n { s with m_firstButtonInitialised := false }).2 := by
  refine ⟨?_, rfl⟩
  simp [setMenuCount, h]

/-- Witness for C9's amended theorem at a concrete latched state. -/
theorem C9_setMenuCount_noop_witness :
    (MenuState.mk 3 1 true).m_firstButtonInitialised = true ∧
    ((setMenuCount 7 ⟨3, 1, true⟩).1 = ⟨3, 1, true⟩ ∧
     (setMenuCount 7 ⟨3, 1, true⟩).2 =
       (setMenuCount 7 ⟨3, 1, false⟩).2) :=
  ⟨rfl, C9_setMenuCount_noop 7 ⟨3, 1, true⟩ rfl⟩

/-- C10: the header's default `eventMask = 0b0000010000111` equals 135;
on a fresh instance exactly KeyDown, KeyUp and KeyPress are enabled among
the six real event kinds, LongKeyPress, AutoRepeatPress and DoubleClick are
disabled, and bit 7 — the position of the `Event_All` sentinel — is set, so
`eventEnabled Event_All` holds on a fresh instance. -/
theorem C10_default_mask :
    initialTable.eventMask = 135 ∧
    eventEnabled initialTable .Event_KeyDown = true ∧
    eventEnabled initialTable .Event_KeyUp = true ∧
    eventEnabled initialTable .Event_KeyPress = true ∧
    eventEnabled initialTable .Event_LongKeyPress = false ∧
    eventEnabled initialTable .Event_AutoRepeatPress = false ∧
    eventEnabled initialTable .Event_DoubleClick = false ∧
    eventEnabled initialTable .Event_All = true := by
  refine ⟨rfl, ?_, ?_, ?_, ?_, ?_, ?_, ?_⟩ <;> decide

/-! ### Clean-input run lemmas for the scenario claims C3, C4, C6.

These compute the behaviour of `run` over segments of constant raw input:
press confirmation, held press (with the long-press timer pending, firing,
then auto-repeat cycling), release confirmation, the double-click window
counting down in the released state, and idle rest. -/

lemma tick_released_true (cfg : Cfg) (lvl dl : Nat) (w : Bool) (dt : Option Nat)
    (hdt : ∀ t, dt = some t → 1 < t) :
    tick cfg ⟨⟨.Released, 0⟩, none, none, dt, w, dl, false⟩ (true, lvl) =
      (⟨⟨.ConfirmingPress, 1⟩, none, none, dt.map (· - 1), w, dl, false⟩, []) := by
  rcases dt with _ | t
  · simp [tick, tickTimers, stepRepeat, stepDbl, stepLong, dstep, classify]
  · have h2 : ¬(t ≤ 1) := by have := hdt t rfl; omega
    simp [tick, tickTimers, stepRepeat, stepDbl, stepLong, dstep, classify, h2]

lemma tick_conf_true_step (cfg : Cfg) (lvl dl v : Nat) (w : Bool)
    (dt : Option Nat) (hdt : ∀ t, dt = some t → 1 < t)
    (hv : v + 1 < m_targetPolls) :
    tick cfg ⟨⟨.ConfirmingPress, v⟩, none, none, dt, w, dl, false⟩ (true, lvl) =
      (⟨⟨.ConfirmingPress, v + 1⟩, none, none, dt.map (· - 1), w, dl, false⟩,
       []) := by
  have hv' : ¬ m_targetPolls ≤ v + 1 := by omega
  rcases dt with _ | t
  · simp [tick, tickTimers, stepRepeat, stepDbl, stepLong, dstep, classify, hv']
  · have h2 : ¬(t ≤ 1) := by have := hdt t rfl; omega
    simp [tick, tickTimers, stepRepeat, stepDbl, stepLong, dstep, classify,
      h2, hv']

lemma tick_conf_true_fire (cfg : Cfg) (lvl dl v : Nat) (w : Bool)
    (dt : Option Nat) (hdt : ∀ t, dt = some t → 1 < t)
    (hv : m_targetPolls ≤ v + 1) :
    tick cfg ⟨⟨.ConfirmingPress, v⟩, none, none, dt, w, dl, false⟩ (true, lvl) =
      (⟨⟨.Pressed, 0⟩,
        (if (eventEnabledMask cfg.eventMask .Event_LongKeyPress ||
             eventEnabledMask cfg.eventMask .Event_AutoRepeatPress) = true then
          some cfg.longTicks else none),
        none, dt.map (· - 1), w, dl, false⟩,
       if eventEnabledMask cfg.eventMask .Event_KeyDown = true then
         [(.Event_KeyDown, lvl)] else []) := by
  rcases dt with _ | t
  · simp [tick, tickTimers, stepRepeat, stepDbl, stepLong, dstep, classify, hv]
  · have h2 : ¬(t ≤ 1) := by have := hdt t rfl; omega
    simp [tick, tickTimers, stepRepeat, stepDbl, stepLong, dstep, classify,
      h2, hv]

lemma run_confirm_press (cfg : Cfg) (lvl dl : Nat) (w : Bool) :
    ∀ (k v : Nat) (dt : Option Nat), 1 ≤ v → 1 ≤ k → v + k = m_targetPolls →
      (∀ t, dt = some t → k < t) →
      run cfg ⟨⟨.ConfirmingPress, v⟩, none, none, dt, w, dl, false⟩
        (List.replicate k (true, lvl)) =
      (⟨⟨.Pressed, 0⟩,
        (if (eventEnabledMask cfg.eventMask .Event_LongKeyPress ||
             eventEnabledMask cfg.eventMask .Event_AutoRepeatPress) = true then
          some cfg.longTicks else none),
        none, dt.map (· - k), w, dl, false⟩,
       if eventEnabledMask cfg.eventMask .Event_KeyDown = true then
         [(.Event_KeyDown, lvl)] else []) := by
  intro k
  induction k with
  | zero => intro v dt _ h2 _ _; omega
  | succ n ih =>
      intro v dt h1 _ h3 hdt
      have hdt1 : ∀ t, dt = some t → 1 < t := by
        intro t ht; have := hdt t ht; omega
      rw [List.replicate_succ, run_cons]
      by_cases hn : n = 0
      · subst hn
        have hv : m_targetPolls ≤ v + 1 := by omega
        rw [tick_conf_true_fire cfg lvl dl v w dt hdt1 hv]
        simp [run]
      · have hv : v + 1 < m_targetPolls := by
          simp only [m_targetPolls] at h3 ⊢
          omega
        rw [tick_conf_true_step cfg lvl dl v w dt hdt1 hv]
        have hdt' : ∀ t, dt.map (· - 1) = some t → n < t := by
          intro t ht
          rcases dt with _ | u
          · simp at ht
          · simp at ht
            have := hdt u rfl
            omega
        rw [ih (v + 1) (dt.map (· - 1)) (by omega) (by omega) (by omega) hdt']
        have : (dt.map (· - 1)).map (· - n) = dt.map (· - (n + 1)) := by
          rcases dt with _ | u
          · rfl
          · simp [Option.map]
            omega
        simp [this]

lemma tick_pressed_true_long (cfg : Cfg) (lvl dl m : Nat) (hm : 1 < m) :
    tick cfg ⟨⟨.Pressed, 0⟩, some m, none, none, false, dl, false⟩ (true, lvl) =
      (⟨⟨.Pressed, 0⟩, some (m - 1), none, none, false, dl, false⟩, []) := by
  have h2 : ¬(m ≤ 1) := by omega
  simp [tick, tickTimers, stepRepeat, stepDbl, stepLong, dstep, classify, h2]

lemma tick_long_fire (cfg : Cfg) (lvl dl : Nat) :
    tick cfg ⟨⟨.Pressed, 0⟩, some 1, none, none, false, dl, false⟩ (true, lvl) =
      (⟨⟨.Pressed, 0⟩, none,
        (if eventEnabledMask cfg.eventMask .Event_AutoRepeatPress = true then
          some cfg.repeatTicks else none),
        none, false, dl, eventEnabledMask cfg.eventMask .Event_LongKeyPress⟩,
       if eventEnabledMask cfg.eventMask .Event_LongKeyPress = true then
         [(.Event_LongKeyPress, lvl)] else []) := by
  simp [tick, tickTimers, stepRepeat, stepDbl, stepLong, dstep, classify]

lemma tick_pressed_true_rep (cfg : Cfg) (lvl dl : Nat) (rt : Option Nat)
    (sup : Bool) :
    ∃ (rt' : Option Nat) (es : List Emit),
      tick cfg ⟨⟨.Pressed, 0⟩, none, rt, none, false, dl, sup⟩ (true, lvl) =
        (⟨⟨.Pressed, 0⟩, none, rt', none, false, dl, sup⟩, es) ∧
      ∀ p ∈ es, p.1 = events.Event_AutoRepeatPress := by
  rcases rt with _ | r
  · exact ⟨none, [], by
      simp [tick, tickTimers, stepRepeat, stepDbl, stepLong, dstep, classify],
      by simp⟩
  · by_cases hr : r ≤ 1
    · by_cases he : eventEnabledMask cfg.eventMask .Event_AutoRepeatPress
      · exact ⟨some cfg.repeatTicks, [(.Event_AutoRepeatPress, lvl)], by
          simp [tick, tickTimers, stepRepeat, stepDbl, stepLong, dstep,
            classify, hr, he],
          by simp⟩
      · exact ⟨some cfg.repeatTicks, [], by
          simp [tick, tickTimers, stepRepeat, stepDbl, stepLong, dstep,
            classify, hr, he],
          by simp⟩
    · exact ⟨some (r - 1), [], by
        simp [tick, tickTimers, stepRepeat, stepDbl, stepLong, dstep,
          classify, hr],
        by simp⟩

lemma tick_pressed_false_rep (cfg : Cfg) (lvl dl : Nat) (rt : Option Nat)
    (sup : Bool) :
    ∃ (rt' : Option Nat) (es : List Emit),
      tick cfg ⟨⟨.Pressed, 0⟩, none, rt, none, false, dl, sup⟩ (false, lvl) =
        (⟨⟨.Releasing, 1⟩, none, rt', none, false, dl, sup⟩, es) ∧
      ∀ p ∈ es, p.1 = events.Event_AutoRepeatPress := by
  rcases rt with _ | r
  · exact ⟨none, [], by
      simp [tick, tickTimers, stepRepeat, stepDbl, stepLong, dstep, classify],
      by simp⟩
  · by_cases hr : r ≤ 1
    · by_cases he : eventEnabledMask cfg.eventMask .Event_AutoRepeatPress
      · exact ⟨some cfg.repeatTicks, [(.Event_AutoRepeatPress, lvl)], by
          simp [tick, tickTimers, stepRepeat, stepDbl, stepLong, dstep,
            classify, hr, he],
          by simp⟩
      · exact ⟨some cfg.repeatTicks, [], by
          simp [tick, tickTimers, stepRepeat, stepDbl, stepLong, dstep,
            classify, hr, he],
          by simp⟩
    · exact ⟨some (r - 1), [], by
        simp [tick, tickTimers, stepRepeat, stepDbl, stepLong, dstep,
          classify, hr],
        by simp⟩

lemma tick_pressed_false_long (cfg : Cfg) (lvl dl : Nat) (w : Bool)
    (lt dt : Option Nat) (hlt : ∀ t, lt = some t → 1 < t)
    (hdt : ∀ t, dt = some t → 1 < t) :
    tick cfg ⟨⟨.Pressed, 0⟩, lt, none, dt, w, dl, false⟩ (false, lvl) =
      (⟨⟨.Releasing, 1⟩, lt.map (· - 1), none, dt.map (· - 1), w, dl, false⟩,
       []) := by
  rcases lt with _ | m <;> rcases dt with _ | t
  · simp [tick, tickTimers, stepRepeat, stepDbl, stepLong, dstep, classify]
  · have h3 : ¬(t ≤ 1) := by have := hdt t rfl; omega
    simp [tick, tickTimers, stepRepeat, stepDbl, stepLong, dstep, classify, h3]
  · have h2 : ¬(m ≤ 1) := by have := hlt m rfl; omega
    simp [tick, tickTimers, stepRepeat, stepDbl, stepLong, dstep, classify, h2]
  · have h2 : ¬(m ≤ 1) := by have := hlt m rfl; omega
    have h3 : ¬(t ≤ 1) := by have := hdt t rfl; omega
    simp [tick, tickTimers, stepRepeat, stepDbl, stepLong, dstep, classify,
      h2, h3]

lemma tick_rel_false_step (cfg : Cfg) (lvl dl v : Nat) (w sup : Bool)
    (lt dt : Option Nat) (hlt : ∀ t, lt = some t → 1 < t)
    (hdt : ∀ t, dt = some t → 1 < t) (hv : v + 1 < m_targetPolls) :
    tick cfg ⟨⟨.Releasing, v⟩, lt, none, dt, w, dl, sup⟩ (false, lvl) =
      (⟨⟨.Releasing, v + 1⟩, lt.map (· - 1), none, dt.map (· - 1), w, dl,
        sup⟩, []) := by
  have hv' : ¬ m_targetPolls ≤ v + 1 := by omega
  rcases lt with _ | m <;> rcases dt with _ | t
  · simp [tick, tickTimers, stepRepeat, stepDbl, stepLong, dstep, classify,
      hv']
  · have h3 : ¬(t ≤ 1) := by have := hdt t rfl; omega
    simp [tick, tickTimers, stepRepeat, stepDbl, stepLong, dstep, classify,
      h3, hv']
  · have h2 : ¬(m ≤ 1) := by have := hlt m rfl; omega
    simp [tick, tickTimers, stepRepeat, stepDbl, stepLong, dstep, classify,
      h2, hv']
  · have h2 : ¬(m ≤ 1) := by have := hlt m rfl; omega
    have h3 : ¬(t ≤ 1) := by have := hdt t rfl; omega
    simp [tick, tickTimers, stepRepeat, stepDbl, stepLong, dstep, classify,
      h2, h3, hv']

lemma tick_rel_false_rep (cfg : Cfg) (lvl dl v : Nat) (sup : Bool)
    (rt : Option Nat) (hv : v + 1 < m_targetPolls) :
    ∃ (rt' : Option Nat) (es : List Emit),
      tick cfg ⟨⟨.Releasing, v⟩, none, rt, none, false, dl, sup⟩ (false, lvl) =
        (⟨⟨.Releasing, v + 1⟩, none, rt', none, false, dl, sup⟩, es) ∧
      ∀ p ∈ es, p.1 = events.Event_AutoRepeatPress := by
  have hv' : ¬ m_targetPolls ≤ v + 1 := by omega
  rcases rt with _ | r
  · exact ⟨none, [], by
      simp [tick, tickTimers, stepRepeat, stepDbl, stepLong, dstep, classify,
        hv'],
      by simp⟩
  · by_cases hr : r ≤ 1
    · by_cases he : eventEnabledMask cfg.eventMask .Event_AutoRepeatPress
      · exact ⟨some cfg.repeatTicks, [(.Event_AutoRepeatPress, lvl)], by
          simp [tick, tickTimers, stepRepeat, stepDbl, stepLong, dstep,
            classify, hr, he, hv'],
          by simp⟩
      · exact ⟨some cfg.repeatTicks, [], by
          simp [tick, tickTimers, stepRepeat, stepDbl, stepLong, dstep,
            classify, hr, he, hv'],
          by simp⟩
    · exact ⟨some (r - 1), [], by
        simp [tick, tickTimers, stepRepeat, stepDbl, stepLong, dstep,
          classify, hr, hv'],
        by simp⟩

lemma tick_up_sup (cfg : Cfg) (lvl dl : Nat) (rt : Option Nat) :
    ∃ es : List Emit,
      tick cfg ⟨⟨.Releasing, m_targetPolls - 1⟩, none, rt, none, false, dl,
          true⟩ (false, lvl) =
        (⟨⟨.Released, 0⟩, none, none, none, false, dl, false⟩, es) ∧
      (∀ p ∈ es, p.1 = events.Event_AutoRepeatPress ∨
        p.1 = events.Event_KeyUp) := by
  have hv : m_targetPolls ≤ (m_targetPolls - 1) + 1 := by
    simp [m_targetPolls]
  rcases rt with _ | r
  · by_cases hu : eventEnabledMask cfg.eventMask .Event_KeyUp
    · exact ⟨[(.Event_KeyUp, lvl)], by
        simp [tick, tickTimers, stepRepeat, stepDbl, stepLong, dstep,
          classify, hu, hv],
        by simp⟩
    · exact ⟨[], by
        simp [tick, tickTimers, stepRepeat, stepDbl, stepLong, dstep,
          classify, hu, hv],
        by simp⟩
  · by_cases hr : r ≤ 1
    · by_cases he : eventEnabledMask cfg.eventMask .Event_AutoRepeatPress <;>
        by_cases hu : eventEnabledMask cfg.eventMask .Event_KeyUp
      · exact ⟨[(.Event_AutoRepeatPress, lvl), (.Event_KeyUp, lvl)], by
          simp [tick, tickTimers, stepRepeat, stepDbl, stepLong, dstep,
            classify, hr, he, hu, hv],
          by simp⟩
      · exact ⟨[(.Event_AutoRepeatPress, lvl)], by
          simp [tick, tickTimers, stepRepeat, stepDbl, stepLong, dstep,
            classify, hr, he, hu, hv],
          by simp⟩
      · exact ⟨[(.Event_KeyUp, lvl)], by
          simp [tick, tickTimers, stepRepeat, stepDbl, stepLong, dstep,
            classify, hr, he, hu, hv],
          by simp⟩
      · exact ⟨[], by
          simp [tick, tickTimers, stepRepeat, stepDbl, stepLong, dstep,
            classify, hr, he, hu, hv],
          by simp⟩
    · by_cases hu : eventEnabledMask cfg.eventMask .Event_KeyUp
      · exact ⟨[(.Event_KeyUp, lvl)], by
          simp [tick, tickTimers, stepRepeat, stepDbl, stepLong, dstep,
            classify, hr, hu, hv],
          by simp⟩
      · exact ⟨[], by
          simp [tick, tickTimers, stepRepeat, stepDbl, stepLong, dstep,
            classify, hr, hu, hv],
          by simp⟩

lemma tick_up_arm (cfg : Cfg) (lvl dl : Nat) (lt : Option Nat)
    (hlt : ∀ t, lt = some t → 1 < t)
    (hdbl : eventEnabledMask cfg.eventMask .Event_DoubleClick = true) :
    tick cfg ⟨⟨.Releasing, m_targetPolls - 1⟩, lt, none, none, false, dl,
        false⟩ (false, lvl) =
      (⟨⟨.Released, 0⟩, none, none, some cfg.dblTicks, true, lvl, false⟩,
       if eventEnabledMask cfg.eventMask .Event_KeyUp = true then
         [(.Event_KeyUp, lvl)] else []) := by
  have hv : m_targetPolls ≤ (m_targetPolls - 1) + 1 := by
    simp [m_targetPolls]
  rcases lt with _ | m
  · simp [tick, tickTimers, stepRepeat, stepDbl, stepLong, dstep, classify,
      hv, hdbl]
  · have h2 : ¬(m ≤ 1) := by have := hlt m rfl; omega
    simp [tick, tickTimers, stepRepeat, stepDbl, stepLong, dstep, classify,
      h2, hv, hdbl]

lemma tick_up_dbl (cfg : Cfg) (lvl dl t : Nat) (lt : Option Nat)
    (hlt : ∀ u, lt = some u → 1 < u) (ht : 1 < t)
    (hdbl : eventEnabledMask cfg.eventMask .Event_DoubleClick = true) :
    tick cfg ⟨⟨.Releasing, m_targetPolls - 1⟩, lt, none, some t, true, dl,
        false⟩ (false, lvl) =
      (⟨⟨.Released, 0⟩, none, none, none, false, dl, false⟩,
       (if eventEnabledMask cfg.eventMask .Event_KeyUp = true then
         [(.Event_KeyUp, lvl)] else []) ++ [(.Event_DoubleClick, dl)]) := by
  have hv : m_targetPolls ≤ (m_targetPolls - 1) + 1 := by
    simp [m_targetPolls]
  have h3 : ¬(t ≤ 1) := by omega
  rcases lt with _ | m
  · simp [tick, tickTimers, stepRepeat, stepDbl, stepLong, dstep, classify,
      h3, hv, hdbl]
  · have h2 : ¬(m ≤ 1) := by have := hlt m rfl; omega
    simp [tick, tickTimers, stepRepeat, stepDbl, stepLong, dstep, classify,
      h2, h3, hv, hdbl]

lemma tick_idle_false (cfg : Cfg) (lvl dl : Nat) :
    tick cfg ⟨⟨.Released, 0⟩, none, none, none, false, dl, false⟩ (false, lvl) =
      (⟨⟨.Released, 0⟩, none, none, none, false, dl, false⟩, []) := by
  simp [tick, tickTimers, stepRepeat, stepDbl, stepLong, dstep, classify]

lemma tick_idle_dbl_step (cfg : Cfg) (lvl dl t : Nat) (ht : 1 < t) :
    tick cfg ⟨⟨.Released, 0⟩, none, none, some t, true, dl, false⟩ (false, lvl) =
      (⟨⟨.Released, 0⟩, none, none, some (t - 1), true, dl, false⟩, []) := by
  have h3 : ¬(t ≤ 1) := by omega
  simp [tick, tickTimers, stepRepeat, stepDbl, stepLong, dstep, classify, h3]

lemma tick_idle_dbl_fire (cfg : Cfg) (lvl dl : Nat) :
    tick cfg ⟨⟨.Released, 0⟩, none, none, some 1, true, dl, false⟩ (false, lvl) =
      (⟨⟨.Released, 0⟩, none, none, none, false, dl, false⟩,
       if eventEnabledMask cfg.eventMask .Event_KeyPress = true then
         [(.Event_KeyPress, dl)] else []) := by
  simp [tick, tickTimers, stepRepeat, stepDbl, stepLong, dstep, classify]

lemma run_hold_long (cfg : Cfg) (lvl dl : Nat) :
    ∀ (k m : Nat), k < m →
      run cfg ⟨⟨.Pressed, 0⟩, some m, none, none, false, dl, false⟩
        (List.replicate k (true, lvl)) =
      (⟨⟨.Pressed, 0⟩, some (m - k), none, none, false, dl, false⟩, []) := by
  intro k
  induction k with
  | zero => intro m _; simp [run]
  | succ n ih =>
      intro m hm
      rw [List.replicate_succ, run_cons,
        tick_pressed_true_long cfg lvl dl m (by omega),
        ih (m - 1) (by omega)]
      have : m - 1 - n = m - (n + 1) := by omega
      simp [this]

lemma run_hold_rep (cfg : Cfg) (lvl dl : Nat) :
    ∀ (k : Nat) (rt : Option Nat) (sup : Bool),
      ∃ (rt' : Option Nat) (es : List Emit),
        run cfg ⟨⟨.Pressed, 0⟩, none, rt, none, false, dl, sup⟩
          (List.replicate k (true, lvl)) =
        (⟨⟨.Pressed, 0⟩, none, rt', none, false, dl, sup⟩, es) ∧
        ∀ p ∈ es, p.1 = events.Event_AutoRepeatPress := by
  intro k
  induction k with
  | zero => intro rt sup; exact ⟨rt, [], by simp [run], by simp⟩
  | succ n ih =>
      intro rt sup
      obtain ⟨rt1, es1, h1, hall1⟩ := tick_pressed_true_rep cfg lvl dl rt sup
      obtain ⟨rt', es2, h2, hall2⟩ := ih rt1 sup
      refine ⟨rt', es1 ++ es2, ?_, ?_⟩
      · rw [List.replicate_succ, run_cons, h1]
        simp [h2]
      · intro p hp
        rcases List.mem_append.mp hp with hp | hp
        · exact hall1 p hp
        · exact hall2 p hp

lemma run_rel_quiet (cfg : Cfg) (lvl dl : Nat) (w sup : Bool) :
    ∀ (k v : Nat) (lt dt : Option Nat), 1 ≤ v → v + k < m_targetPolls →
      (∀ t, lt = some t → k < t) → (∀ t, dt = some t → k < t) →
      run cfg ⟨⟨.Releasing, v⟩, lt, none, dt, w, dl, sup⟩
        (List.replicate k (false, lvl)) =
      (⟨⟨.Releasing, v + k⟩, lt.map (· - k), none, dt.map (· - k), w, dl,
        sup⟩, []) := by
  intro k
  induction k with
  | zero =>
      intro v lt dt _ _ _ _
      simp [run]
  | succ n ih =>
      intro v lt dt h1 h2 hlt hdt
      have hlt1 : ∀ t, lt = some t → 1 < t := fun t ht => by
        have := hlt t ht; omega
      have hdt1 : ∀ t, dt = some t → 1 < t := fun t ht => by
        have := hdt t ht; omega
      rw [List.replicate_succ, run_cons,
        tick_rel_false_step cfg lvl dl v w sup lt dt hlt1 hdt1 (by omega)]
      have hlt' : ∀ t, lt.map (· - 1) = some t → n < t := by
        intro t ht
        rcases lt with _ | u
        · simp at ht
        · simp at ht; have := hlt u rfl; omega
      have hdt' : ∀ t, dt.map (· - 1) = some t → n < t := by
        intro t ht
        rcases dt with _ | u
        · simp at ht
        · simp at ht; have := hdt u rfl; omega
      rw [ih (v + 1) (lt.map (· - 1)) (dt.map (· - 1)) (by omega) (by omega)
        hlt' hdt']
      have e1 : (lt.map (· - 1)).map (· - n) = lt.map (· - (n + 1)) := by
        rcases lt with _ | u
        · rfl
        · simp [Option.map]; omega
      have e2 : (dt.map (· - 1)).map (· - n) = dt.map (· - (n + 1)) := by
        rcases dt with _ | u
        · rfl
        · simp [Option.map]; omega
      have e3 : v + 1 + n = v + (n + 1) := by omega
      simp [e1, e2, e3]

lemma run_rel_rep (cfg : Cfg) (lvl dl : Nat) (sup : Bool) :
    ∀ (k v : Nat) (rt : Option Nat), 1 ≤ v → v + k < m_targetPolls →
      ∃ (rt' : Option Nat) (es : List Emit),
        run cfg ⟨⟨.Releasing, v⟩, none, rt, none, false, dl, sup⟩
          (List.replicate k (false, lvl)) =
        (⟨⟨.Releasing, v + k⟩, none, rt', none, false, dl, sup⟩, es) ∧
        ∀ p ∈ es, p.1 = events.Event_AutoRepeatPress := by
  intro k
  induction k with
  | zero =>
      intro v rt _ _
      exact ⟨rt, [], by simp [run], by simp⟩
  | succ n ih =>
      intro v rt h1 h2
      obtain ⟨rt1, es1, hs1, hall1⟩ :=
        tick_rel_false_rep cfg lvl dl v sup rt (by omega)
      obtain ⟨rt', es2, hs2, hall2⟩ := ih (v + 1) rt1 (by omega) (by omega)
      refine ⟨rt', es1 ++ es2, ?_, ?_⟩
      · rw [List.replicate_succ, run_cons, hs1]
        have e3 : v + 1 + n = v + (n + 1) := by omega
        rw [e3] at hs2
        simp [hs2]
      · intro p hp
        rcases List.mem_append.mp hp with hp | hp
        · exact hall1 p hp
        · exact hall2 p hp

lemma run_idle (cfg : Cfg) (lvl dl : Nat) :
    ∀ (k : Nat),
      run cfg ⟨⟨.Released, 0⟩, none, none, none, false, dl, false⟩
        (List.replicate k (false, lvl)) =
      (⟨⟨.Released, 0⟩, none, none, none, false, dl, false⟩, []) := by
  intro k
  induction k with
  | zero => simp [run]
  | succ n ih =>
      rw [List.replicate_succ, run_cons, tick_idle_false cfg lvl dl]
      simp [ih]

lemma run_idle_dbl (cfg : Cfg) (lvl dl : Nat) :
    ∀ (k t : Nat), k < t →
      run cfg ⟨⟨.Released, 0⟩, none, none, some t, true, dl, false⟩
        (List.replicate k (false, lvl)) =
      (⟨⟨.Released, 0⟩, none, none, some (t - k), true, dl, false⟩, []) := by
  intro k
  induction k with
  | zero => intro t _; simp [run]
  | succ n ih =>
      intro t ht
      rw [List.replicate_succ, run_cons,
        tick_idle_dbl_step cfg lvl dl t (by omega), ih (t - 1) (by omega)]
      have : t - 1 - n = t - (n + 1) := by omega
      simp [this]

lemma run_single (cfg : Cfg) (s : BtnState) (x : Bool × Nat) :
    run cfg s [x] = tick cfg s x := by
  simp [run]

lemma run_split (cfg : Cfg) {s s1 s2 : BtnState} {es1 es2 : List Emit}
    {xs ys : List (Bool × Nat)} (h1 : run cfg s xs = (s1, es1))
    (h2 : run cfg s1 ys = (s2, es2)) :
    run cfg s (xs ++ ys) = (s2, es1 ++ es2) := by
  rw [run_append, h1]
  simp [h2]

lemma countEv_append (e : events) (l m : List Emit) :
    countEv e (l ++ m) = countEv e l + countEv e m := by
  simp [countEv, List.filter_append]

lemma countEv_eq_zero {e : events} {es : List Emit}
    (h : ∀ p ∈ es, ¬ p.1 = e) : countEv e es = 0 := by
  rw [countEv, List.length_eq_zero, List.filter_eq_nil_iff]
  intro p hp
  simpa using h p hp

lemma countEv_ite_ne {e e' : events} (c : Bool) (lv : Nat) (h : ¬ e = e') :
    countEv e' (if c = true then [((e, lv) : Emit)] else []) = 0 := by
  cases c <;> simp [countEv, h]

/-- A clean single press-hold-release input train at constant menu level
`lvl`: press confirmation (10 agreeing polls), hold until the long-press
threshold elapses, `h` further held ticks, release confirmation (10 agreeing
polls), and `extra` idle ticks. -/
def pressHoldRelease (cfg : Cfg) (lvl h extra : Nat) : List (Bool × Nat) :=
  [(true, lvl)] ++ (List.replicate 9 (true, lvl) ++
  (List.replicate (cfg.longTicks - 1) (true, lvl) ++ ([(true, lvl)] ++
  (List.replicate h (true, lvl) ++ ([(false, lvl)] ++
  (List.replicate 8 (false, lvl) ++ ([(false, lvl)] ++
  List.replicate extra (false, lvl))))))))

/-- C3: for every press cycle held past the long-press threshold (any extra
hold `h`, any trailing idle `extra`, any enabled-event mask with
LongKeyPress enabled, any timer configuration) and then released, exactly
one LongKeyPress and zero KeyPress are emitted for the cycle: the long-press
fire sets `m_longPress_preventKeyPress`, which cancels the trailing
KeyPress at the confirmed KeyUp. -/
theorem C3_long_press_suppresses_keypress (cfg : Cfg) (lvl h extra : Nat)
    (hL : eventEnabledMask cfg.eventMask .Event_LongKeyPress = true)
    (hLpos : 1 ≤ cfg.longTicks) :
    countEv .Event_LongKeyPress
        (run cfg s0 (pressHoldRelease cfg lvl h extra)).2 = 1 ∧
    countEv .Event_KeyPress
        (run cfg s0 (pressHoldRelease cfg lvl h extra)).2 = 0 := by
  have T1 : run cfg s0 [(true, lvl)] =
      (⟨⟨.ConfirmingPress, 1⟩, none, none, none, false, 0, false⟩, []) := by
    rw [run_single]
    simp only [s0, debInit]
    rw [tick_released_true cfg lvl 0 false none (by simp)]
    rfl
  have R2 : run cfg ⟨⟨.ConfirmingPress, 1⟩, none, none, none, false, 0, false⟩
      (List.replicate 9 (true, lvl)) =
      (⟨⟨.Pressed, 0⟩, some cfg.longTicks, none, none, false, 0, false⟩,
       if eventEnabledMask cfg.eventMask .Event_KeyDown = true then
         [(.Event_KeyDown, lvl)] else []) := by
    have := run_confirm_press cfg lvl 0 false 9 1 none (by omega) (by omega)
      (by simp [m_targetPolls]) (by simp)
    simpa [hL] using this
  have R3 : run cfg ⟨⟨.Pressed, 0⟩, some cfg.longTicks, none, none, false, 0,
      false⟩ (List.replicate (cfg.longTicks - 1) (true, lvl)) =
      (⟨⟨.Pressed, 0⟩, some 1, none, none, false, 0, false⟩, []) := by
    have hsub : cfg.longTicks - (cfg.longTicks - 1) = 1 := by omega
    have := run_hold_long cfg lvl 0 (cfg.longTicks - 1) cfg.longTicks
      (by omega)
    simpa [hsub] using this
  have T2 : run cfg ⟨⟨.Pressed, 0⟩, some 1, none, none, false, 0, false⟩
      [(true, lvl)] =
      (⟨⟨.Pressed, 0⟩, none,
        (if eventEnabledMask cfg.eventMask .Event_AutoRepeatPress = true then
          some cfg.repeatTicks else none), none, false, 0, true⟩,
       [(.Event_LongKeyPress, lvl)]) := by
    rw [run_single, tick_long_fire]
    simp [hL]
  obtain ⟨rt1, es1, HR4, hall1⟩ := run_hold_rep cfg lvl 0 h
    (if eventEnabledMask cfg.eventMask .Event_AutoRepeatPress = true then
      some cfg.repeatTicks else none) true
  obtain ⟨rt2, es2, HT3, hall2⟩ := tick_pressed_false_rep cfg lvl 0 rt1 true
  have T3 : run cfg ⟨⟨.Pressed, 0⟩, none, rt1, none, false, 0, true⟩
      [(false, lvl)] =
      (⟨⟨.Releasing, 1⟩, none, rt2, none, false, 0, true⟩, es2) := by
    rw [run_single, HT3]
  obtain ⟨rt3, es3, HR5, hall3⟩ := run_rel_rep cfg lvl 0 true 8 1 rt2
    (by omega) (by simp [m_targetPolls])
  norm_num at HR5
  obtain ⟨es4, HT4, hall4⟩ := tick_up_sup cfg lvl 0 rt3
  have hnine : m_targetPolls - 1 = 9 := rfl
  rw [hnine] at HT4
  have T4 : run cfg ⟨⟨.Releasing, 9⟩, none, rt3, none, false, 0, true⟩
      [(false, lvl)] =
      (⟨⟨.Released, 0⟩, none, none, none, false, 0, false⟩, es4) := by
    rw [run_single, HT4]
  have R6 := run_idle cfg lvl 0 extra
  -- assemble the run over the whole input, from the tail forwards
  have A2 := run_split cfg T4 R6
  have A3 := run_split cfg HR5 A2
  have A4 := run_split cfg T3 A3
  have A5 := run_split cfg HR4 A4
  have A6 := run_split cfg T2 A5
  have A7 := run_split cfg R3 A6
  have A8 := run_split cfg R2 A7
  have A9 := run_split cfg T1 A8
  rw [pressHoldRelease, A9]
  have z1 : countEv .Event_LongKeyPress es1 = 0 :=
    countEv_eq_zero (fun p hp => by rw [hall1 p hp]; simp)
  have z2 : countEv .Event_LongKeyPress es2 = 0 :=
    countEv_eq_zero (fun p hp => by rw [hall2 p hp]; simp)
  have z3 : countEv .Event_LongKeyPress es3 = 0 :=
    countEv_eq_zero (fun p hp => by rw [hall3 p hp]; simp)
  have z4 : countEv .Event_LongKeyPress es4 = 0 :=
    countEv_eq_zero (fun p hp => by rcases hall4 p hp with h4 | h4 <;>
      rw [h4] <;> simp)
  have w1 : countEv .Event_KeyPress es1 = 0 :=
    countEv_eq_zero (fun p hp => by rw [hall1 p hp]; simp)
  have w2 : countEv .Event_KeyPress es2 = 0 :=
    countEv_eq_zero (fun p hp => by rw [hall2 p hp]; simp)
  have w3 : countEv .Event_KeyPress es3 = 0 :=
    countEv_eq_zero (fun p hp => by rw [hall3 p hp]; simp)
  have w4 : countEv .Event_KeyPress es4 = 0 :=
    countEv_eq_zero (fun p hp => by rcases hall4 p hp with h4 | h4 <;>
      rw [h4] <;> simp)
  constructor
  · simp only [countEv_append, z1, z2, z3, z4,
      countEv_ite_ne _ lvl (by simp : ¬ events.Event_KeyDown =
        events.Event_LongKeyPress)]
    simp [countEv]
  · simp only [countEv_append, w1, w2, w3, w4,
      countEv_ite_ne _ lvl (by simp : ¬ events.Event_KeyDown =
        events.Event_KeyPress)]
    simp [countEv]

/-- Witness for C3: a concrete configuration (mask 143 = default 135 with
the LongKeyPress bit set, threshold 3 ticks) and a concrete hold/release. -/
theorem C3_long_press_suppresses_keypress_witness :
    (eventEnabledMask (Cfg.mk 143 3 2 5).eventMask .Event_LongKeyPress
      = true) ∧
    (1 ≤ (Cfg.mk 143 3 2 5).longTicks) ∧
    (countEv .Event_LongKeyPress
        (run ⟨143, 3, 2, 5⟩ s0 (pressHoldRelease ⟨143, 3, 2, 5⟩ 0 4 2)).2
        = 1 ∧
     countEv .Event_KeyPress
        (run ⟨143, 3, 2, 5⟩ s0 (pressHoldRelease ⟨143, 3, 2, 5⟩ 0 4 2)).2
        = 0) :=
  ⟨by decide, by decide,
   C3_long_press_suppresses_keypress ⟨143, 3, 2, 5⟩ 0 4 2 (by decide)
     (by decide)⟩

/-- One clean confirmed press/release cycle at constant menu level `lvl`:
10 agreeing pressed polls then 10 agreeing released polls. -/
def dblCycle (lvl : Nat) : List (Bool × Nat) :=
  [(true, lvl)] ++ (List.replicate 9 (true, lvl) ++ ([(false, lvl)] ++
  (List.replicate 8 (false, lvl) ++ [(false, lvl)])))

/-- A clean cycle from the released/idle state with double-click detection
enabled and the long-press threshold beyond the cycle (`11 ≤ longTicks`):
KeyDown then KeyUp are confirmed and the KeyUp arms the double-click window,
capturing the level `lvl` in `m_doubleClickMenuLevel`. -/
lemma run_cycle_arm (cfg : Cfg) (lvl dl : Nat)
    (hdbl : eventEnabledMask cfg.eventMask .Event_DoubleClick = true)
    (hL : 11 ≤ cfg.longTicks) :
    run cfg ⟨⟨.Released, 0⟩, none, none, none, false, dl, false⟩
      (dblCycle lvl) =
    (⟨⟨.Released, 0⟩, none, none, some cfg.dblTicks, true, lvl, false⟩,
     (if eventEnabledMask cfg.eventMask .Event_KeyDown = true then
        [(.Event_KeyDown, lvl)] else []) ++
     (if eventEnabledMask cfg.eventMask .Event_KeyUp = true then
        [(.Event_KeyUp, lvl)] else [])) := by
  have T1 : run cfg ⟨⟨.Released, 0⟩, none, none, none, false, dl, false⟩
      [(true, lvl)] =
      (⟨⟨.ConfirmingPress, 1⟩, none, none, none, false, dl, false⟩, []) := by
    rw [run_single, tick_released_true cfg lvl dl false none (by simp)]
    rfl
  have R2 : run cfg ⟨⟨.ConfirmingPress, 1⟩, none, none, none, false, dl,
      false⟩ (List.replicate 9 (true, lvl)) =
      (⟨⟨.Pressed, 0⟩,
        (if (eventEnabledMask cfg.eventMask .Event_LongKeyPress ||
             eventEnabledMask cfg.eventMask .Event_AutoRepeatPress) = true then
          some cfg.longTicks else none), none, none, false, dl, false⟩,
       if eventEnabledMask cfg.eventMask .Event_KeyDown = true then
         [(.Event_KeyDown, lvl)] else []) := by
    simpa using run_confirm_press cfg lvl dl false 9 1 none (by omega)
      (by omega) (by simp [m_targetPolls]) (by simp)
  set lt0 : Option Nat :=
    (if (eventEnabledMask cfg.eventMask .Event_LongKeyPress ||
         eventEnabledMask cfg.eventMask .Event_AutoRepeatPress) = true then
      some cfg.longTicks else none) with hlt0
  have hlt0safe : ∀ (k : Nat), k ≤ 10 → ∀ t, lt0 = some t → k < t := by
    intro k hk t ht
    rw [hlt0] at ht
    by_cases hc : (eventEnabledMask cfg.eventMask .Event_LongKeyPress ||
        eventEnabledMask cfg.eventMask .Event_AutoRepeatPress) = true <;>
      simp [hc] at ht
    omega
  have T3 : run cfg ⟨⟨.Pressed, 0⟩, lt0, none, none, false, dl, false⟩
      [(false, lvl)] =
      (⟨⟨.Releasing, 1⟩, lt0.map (· - 1), none, none, false, dl, false⟩,
       []) := by
    rw [run_single]
    simpa using tick_pressed_false_long cfg lvl dl false lt0 none
      (hlt0safe 1 (by omega)) (by simp)
  have hlt1safe : ∀ t, lt0.map (· - 1) = some t → 8 < t := by
    intro t ht
    rcases hu : lt0 with _ | u
    · rw [hu] at ht; simp at ht
    · rw [hu] at ht
      simp at ht
      have := hlt0safe 10 (by omega) u hu
      omega
  have R4 : run cfg ⟨⟨.Releasing, 1⟩, lt0.map (· - 1), none, none, false, dl,
      false⟩ (List.replicate 8 (false, lvl)) =
      (⟨⟨.Releasing, 9⟩, (lt0.map (· - 1)).map (· - 8), none, none, false,
        dl, false⟩, []) := by
    simpa using run_rel_quiet cfg lvl dl false false 8 1 (lt0.map (· - 1))
      none (by omega) (by simp [m_targetPolls]) hlt1safe (by simp)
  have hlt2safe : ∀ t, (lt0.map (· - 1)).map (· - 8) = some t → 1 < t := by
    intro t ht
    rcases hu : lt0 with _ | u
    · rw [hu] at ht; simp at ht
    · rw [hu] at ht
      simp at ht
      have := hlt0safe 10 (by omega) u hu
      omega
  have T5 : run cfg ⟨⟨.Releasing, 9⟩, (lt0.map (· - 1)).map (· - 8), none,
      none, false, dl, false⟩ [(false, lvl)] =
      (⟨⟨.Released, 0⟩, none, none, some cfg.dblTicks, true, lvl, false⟩,
       if eventEnabledMask cfg.eventMask .Event_KeyUp = true then
         [(.Event_KeyUp, lvl)] else []) := by
    rw [run_single]
    have h9 : (9 : Nat) = m_targetPolls - 1 := rfl
    rw [h9]
    exact tick_up_arm cfg lvl dl _ hlt2safe hdbl
  have A4 := run_split cfg R4 T5
  have A3 := run_split cfg T3 A4
  have A2 := run_split cfg R2 A3
  have A1 := run_split cfg T1 A2
  rw [dblCycle, A1]
  simp

/-- A clean second cycle begun while the double-click window is open
(`21 ≤ t` remaining ticks): the cycle completes inside the window, so its
confirmed KeyUp cancels the timer and emits DoubleClick at the captured
level `dl`. -/
lemma run_cycle_dbl (cfg : Cfg) (lvl dl t : Nat)
    (hdbl : eventEnabledMask cfg.eventMask .Event_DoubleClick = true)
    (hL : 11 ≤ cfg.longTicks) (ht : 21 ≤ t) :
    run cfg ⟨⟨.Released, 0⟩, none, none, some t, true, dl, false⟩
      (dblCycle lvl) =
    (⟨⟨.Released, 0⟩, none, none, none, false, dl, false⟩,
     (if eventEnabledMask cfg.eventMask .Event_KeyDown = true then
        [(.Event_KeyDown, lvl)] else []) ++
     ((if eventEnabledMask cfg.eventMask .Event_KeyUp = true then
        [(.Event_KeyUp, lvl)] else []) ++ [(.Event_DoubleClick, dl)])) := by
  have T1 : run cfg ⟨⟨.Released, 0⟩, none, none, some t, true, dl, false⟩
      [(true, lvl)] =
      (⟨⟨.ConfirmingPress, 1⟩, none, none, some (t - 1), true, dl, false⟩,
       []) := by
    rw [run_single]
    simpa using tick_released_true cfg lvl dl true (some t)
      (by intro u hu; simp at hu; omega)
  have R2 : run cfg ⟨⟨.ConfirmingPress, 1⟩, none, none, some (t - 1), true,
      dl, false⟩ (List.replicate 9 (true, lvl)) =
      (⟨⟨.Pressed, 0⟩,
        (if (eventEnabledMask cfg.eventMask .Event_LongKeyPress ||
             eventEnabledMask cfg.eventMask .Event_AutoRepeatPress) = true then
          some cfg.longTicks else none), none, some (t - 10), true, dl,
        false⟩,
       if eventEnabledMask cfg.eventMask .Event_KeyDown = true then
         [(.Event_KeyDown, lvl)] else []) := by
    have := run_confirm_press cfg lvl dl true 9 1 (some (t - 1)) (by omega)
      (by omega) (by simp [m_targetPolls])
      (by intro u hu; simp at hu; omega)
    have he : (some (t - 1)).map (· - 9) = some (t - 10) := by
      simp; omega
    rw [he] at this
    exact this
  set lt0 : Option Nat :=
    (if (eventEnabledMask cfg.eventMask .Event_LongKeyPress ||
         eventEnabledMask cfg.eventMask .Event_AutoRepeatPress) = true then
      some cfg.longTicks else none) with hlt0
  have hlt0safe : ∀ (k : Nat), k ≤ 10 → ∀ u, lt0 = some u → k < u := by
    intro k hk u hu
    rw [hlt0] at hu
    by_cases hc : (eventEnabledMask cfg.eventMask .Event_LongKeyPress ||
        eventEnabledMask cfg.eventMask .Event_AutoRepeatPress) = true <;>
      simp [hc] at hu
    omega
  have T3 : run cfg ⟨⟨.Pressed, 0⟩, lt0, none, some (t - 10), true, dl,
      false⟩ [(false, lvl)] =
      (⟨⟨.Releasing, 1⟩, lt0.map (· - 1), none, some (t - 11), true, dl,
       false⟩, []) := by
    rw [run_single]
    have := tick_pressed_false_long cfg lvl dl true lt0 (some (t - 10))
      (hlt0safe 1 (by omega)) (by intro u hu; simp at hu; omega)
    have he : (some (t - 10)).map (· - 1) = some (t - 11) := by
      simp; omega
    rw [he] at this
    exact this
  have hlt1safe : ∀ u, lt0.map (· - 1) = some u → 8 < u := by
    intro u hu
    rcases hv : lt0 with _ | v
    · rw [hv] at hu; simp at hu
    · rw [hv] at hu
      simp at hu
      have := hlt0safe 10 (by omega) v hv
      omega
  have R4 : run cfg ⟨⟨.Releasing, 1⟩, lt0.map (· - 1), none, some (t - 11),
      true, dl, false⟩ (List.replicate 8 (false, lvl)) =
      (⟨⟨.Releasing, 9⟩, (lt0.map (· - 1)).map (· - 8), none, some (t - 19),
        true, dl, false⟩, []) := by
    have := run_rel_quiet cfg lvl dl true false 8 1 (lt0.map (· - 1))
      (some (t - 11)) (by omega) (by simp [m_targetPolls]) hlt1safe
      (by intro u hu; simp at hu; omega)
    have he : (some (t - 11)).map (· - 8) = some (t - 19) := by
      simp; omega
    rw [he] at this
    simpa using this
  have hlt2safe : ∀ u, (lt0.map (· - 1)).map (· - 8) = some u → 1 < u := by
    intro u hu
    rcases hv : lt0 with _ | v
    · rw [hv] at hu; simp at hu
    · rw [hv] at hu
      simp at hu
      have := hlt0safe 10 (by omega) v hv
      omega
  have T5 : run cfg ⟨⟨.Releasing, 9⟩, (lt0.map (· - 1)).map (· - 8), none,
      some (t - 19), true, dl, false⟩ [(false, lvl)] =
      (⟨⟨.Released, 0⟩, none, none, none, false, dl, false⟩,
       (if eventEnabledMask cfg.eventMask .Event_KeyUp = true then
         [(.Event_KeyUp, lvl)] else []) ++ [(.Event_DoubleClick, dl)]) := by
    rw [run_single]
    have h9 : (9 : Nat) = m_targetPolls - 1 := rfl
    rw [h9]
    exact tick_up_dbl cfg lvl dl (t - 19) _ hlt2safe (by omega) hdbl
  have A4 := run_split cfg R4 T5
  have A3 := run_split cfg T3 A4
  have A2 := run_split cfg R2 A3
  have A1 := run_split cfg T1 A2
  rw [dblCycle, A1]
  simp

/-- Two clean press/release cycles back to back: the second begins
immediately, so it completes well inside the double-click window
(`21 ≤ dblTicks` ticks versus the 20-tick second cycle). -/
def dblWithin (lvl extra : Nat) : List (Bool × Nat) :=
  dblCycle lvl ++ (dblCycle lvl ++ List.replicate extra (false, lvl))

/-- Two clean press/release cycles separated by enough idle time for the
double-click window to expire between them (and after the second). -/
def dblApart (cfg : Cfg) (lvl g extra : Nat) : List (Bool × Nat) :=
  dblCycle lvl ++ (List.replicate (cfg.dblTicks - 1) (false, lvl) ++
  ([(false, lvl)] ++ (List.replicate g (false, lvl) ++
  (dblCycle lvl ++ (List.replicate (cfg.dblTicks - 1) (false, lvl) ++
  ([(false, lvl)] ++ List.replicate extra (false, lvl)))))))

/-- C4: with double-click detection enabled (and KeyPress enabled, the
long-press threshold beyond a cycle), two confirmed press/release cycles
completing within the double-click window yield exactly one DoubleClick and
zero KeyPress, while two cycles completing outside the window yield exactly
two KeyPress and zero DoubleClick. -/
theorem C4_double_click_window (cfg : Cfg) (lvl g extra : Nat)
    (hdbl : eventEnabledMask cfg.eventMask .Event_DoubleClick = true)
    (hP : eventEnabledMask cfg.eventMask .Event_KeyPress = true)
    (hL : 11 ≤ cfg.longTicks) (hD : 21 ≤ cfg.dblTicks) :
    (countEv .Event_DoubleClick
        (run cfg s0 (dblWithin lvl extra)).2 = 1 ∧
     countEv .Event_KeyPress
        (run cfg s0 (dblWithin lvl extra)).2 = 0) ∧
    (countEv .Event_KeyPress
        (run cfg s0 (dblApart cfg lvl g extra)).2 = 2 ∧
     countEv .Event_DoubleClick
        (run cfg s0 (dblApart cfg lvl g extra)).2 = 0) := by
  have hs0 : s0 = ⟨⟨.Released, 0⟩, none, none, none, false, 0, false⟩ := rfl
  -- within-window run
  have W1 := run_cycle_arm cfg lvl 0 hdbl hL
  have W2 := run_cycle_dbl cfg lvl lvl cfg.dblTicks hdbl hL hD
  have W3 := run_idle cfg lvl lvl extra
  have WA2 := run_split cfg W2 W3
  have WA1 := run_split cfg W1 WA2
  -- apart run
  have B2 : run cfg ⟨⟨.Released, 0⟩, none, none, some cfg.dblTicks, true,
      lvl, false⟩ (List.replicate (cfg.dblTicks - 1) (false, lvl)) =
      (⟨⟨.Released, 0⟩, none, none, some 1, true, lvl, false⟩, []) := by
    have := run_idle_dbl cfg lvl lvl (cfg.dblTicks - 1) cfg.dblTicks
      (by omega)
    have he : cfg.dblTicks - (cfg.dblTicks - 1) = 1 := by omega
    rw [he] at this
    exact this
  have B3 : run cfg ⟨⟨.Released, 0⟩, none, none, some 1, true, lvl, false⟩
      [(false, lvl)] =
      (⟨⟨.Released, 0⟩, none, none, none, false, lvl, false⟩,
       [(.Event_KeyPress, lvl)]) := by
    rw [run_single, tick_idle_dbl_fire cfg lvl lvl, hP]
    rfl
  have B4 := run_idle cfg lvl lvl g
  have B5 := run_cycle_arm cfg lvl lvl hdbl hL
  have B8 := run_idle cfg lvl lvl extra
  have BA7 := run_split cfg B3 B8
  have BA6 := run_split cfg B2 BA7
  have BA5 := run_split cfg B5 BA6
  have BA4 := run_split cfg B4 BA5
  have BA3 := run_split cfg B3 BA4
  have BA2 := run_split cfg B2 BA3
  have BA1 := run_split cfg (run_cycle_arm cfg lvl 0 hdbl hL) BA2
  refine ⟨⟨?_, ?_⟩, ?_, ?_⟩
  · rw [dblWithin, hs0, WA1]
    simp only [countEv_append,
      countEv_ite_ne _ lvl (by simp : ¬ events.Event_KeyDown =
        events.Event_DoubleClick),
      countEv_ite_ne _ lvl (by simp : ¬ events.Event_KeyUp =
        events.Event_DoubleClick)]
    simp [countEv]
  · rw [dblWithin, hs0, WA1]
    simp only [countEv_append,
      countEv_ite_ne _ lvl (by simp : ¬ events.Event_KeyDown =
        events.Event_KeyPress),
      countEv_ite_ne _ lvl (by simp : ¬ events.Event_KeyUp =
        events.Event_KeyPress)]
    simp [countEv]
  · rw [dblApart, hs0, BA1]
    simp only [countEv_append,
      countEv_ite_ne _ lvl (by simp : ¬ events.Event_KeyDown =
        events.Event_KeyPress),
      countEv_ite_ne _ lvl (by simp : ¬ events.Event_KeyUp =
        events.Event_KeyPress)]
    simp [countEv]
  · rw [dblApart, hs0, BA1]
    simp only [countEv_append,
      countEv_ite_ne _ lvl (by simp : ¬ events.Event_KeyDown =
        events.Event_DoubleClick),
      countEv_ite_ne _ lvl (by simp : ¬ events.Event_KeyUp =
        events.Event_DoubleClick)]
    simp [countEv]

/-- Witness for C4: mask 167 = default 135 with the DoubleClick bit set;
long-press threshold 12 ticks, double-click window 21 ticks. -/
theorem C4_double_click_window_witness :
    (eventEnabledMask (Cfg.mk 167 12 5 21).eventMask .Event_DoubleClick
      = true) ∧
    (eventEnabledMask (Cfg.mk 167 12 5 21).eventMask .Event_KeyPress
      = true) ∧
    ((countEv .Event_DoubleClick
        (run ⟨167, 12, 5, 21⟩ s0 (dblWithin 0 3)).2 = 1 ∧
      countEv .Event_KeyPress
        (run ⟨167, 12, 5, 21⟩ s0 (dblWithin 0 3)).2 = 0) ∧
     (countEv .Event_KeyPress
        (run ⟨167, 12, 5, 21⟩ s0 (dblApart ⟨167, 12, 5, 21⟩ 0 2 3)).2 = 2 ∧
      countEv .Event_DoubleClick
        (run ⟨167, 12, 5, 21⟩ s0 (dblApart ⟨167, 12, 5, 21⟩ 0 2 3)).2 = 0)) :=
  ⟨by decide, by decide,
   C4_double_click_window ⟨167, 12, 5, 21⟩ 0 2 3 (by decide) (by decide)
     (by decide) (by decide)⟩

lemma filter_ite_ne {e e' : events} (c : Bool) (lv : Nat) (h : ¬ e = e') :
    (if c = true then [((e, lv) : Emit)] else []).filter
      (fun p => p.1 = e') = [] := by
  cases c <;> simp [h]

/-- A first cycle at menu level `l1`, then a second cycle completing within
the window while the process-wide level has changed to `l2`. -/
def dblLevelWithin (l1 l2 extra : Nat) : List (Bool × Nat) :=
  dblCycle l1 ++ (dblCycle l2 ++ List.replicate extra (false, l2))

/-- A first cycle at menu level `l1`, then the window expires while the
process-wide level has changed to `l2`. -/
def dblLevelTimeout (cfg : Cfg) (l1 l2 extra : Nat) : List (Bool × Nat) :=
  dblCycle l1 ++ (List.replicate (cfg.dblTicks - 1) (false, l2) ++
  ([(false, l2)] ++ List.replicate extra (false, l2)))

/-- C6: the menu level `l1` in effect at the first confirmed KeyUp is
captured in `m_doubleClickMenuLevel`; both the resulting DoubleClick (when a
second cycle completes inside the window) and the deferred single KeyPress
(when the window expires) are dispatched at the captured level `l1`, even
though the process-wide level has changed to `l2` before the emission. -/
theorem C6_captured_menu_level (cfg : Cfg) (l1 l2 extra : Nat)
    (hdbl : eventEnabledMask cfg.eventMask .Event_DoubleClick = true)
    (hP : eventEnabledMask cfg.eventMask .Event_KeyPress = true)
    (hL : 11 ≤ cfg.longTicks) (hD : 21 ≤ cfg.dblTicks) :
    ((run cfg s0 (dblLevelWithin l1 l2 extra)).2.filter
        (fun p => p.1 = .Event_DoubleClick) = [(.Event_DoubleClick, l1)]) ∧
    ((run cfg s0 (dblLevelTimeout cfg l1 l2 extra)).2.filter
        (fun p => p.1 = .Event_KeyPress) = [(.Event_KeyPress, l1)]) := by
  have hs0 : s0 = ⟨⟨.Released, 0⟩, none, none, none, false, 0, false⟩ := rfl
  -- within-window run, second cycle at level l2
  have W1 := run_cycle_arm cfg l1 0 hdbl hL
  have W2 := run_cycle_dbl cfg l2 l1 cfg.dblTicks hdbl hL hD
  have W3 := run_idle cfg l2 l1 extra
  have WA2 := run_split cfg W2 W3
  have WA1 := run_split cfg W1 WA2
  -- timeout run, window counts down at level l2
  have B2 : run cfg ⟨⟨.Released, 0⟩, none, none, some cfg.dblTicks, true,
      l1, false⟩ (List.replicate (cfg.dblTicks - 1) (false, l2)) =
      (⟨⟨.Released, 0⟩, none, none, some 1, true, l1, false⟩, []) := by
    have := run_idle_dbl cfg l2 l1 (cfg.dblTicks - 1) cfg.dblTicks (by omega)
    have he : cfg.dblTicks - (cfg.dblTicks - 1) = 1 := by omega
    rw [he] at this
    exact this
  have B3 : run cfg ⟨⟨.Released, 0⟩, none, none, some 1, true, l1, false⟩
      [(false, l2)] =
      (⟨⟨.Released, 0⟩, none, none, none, false, l1, false⟩,
       [(.Event_KeyPress, l1)]) := by
    rw [run_single, tick_idle_dbl_fire cfg l2 l1, hP]
    rfl
  have B4 := run_idle cfg l2 l1 extra
  have BA3 := run_split cfg B3 B4
  have BA2 := run_split cfg B2 BA3
  have BA1 := run_split cfg (run_cycle_arm cfg l1 0 hdbl hL) BA2
  constructor
  · rw [dblLevelWithin, hs0, WA1]
    simp only [List.filter_append,
      filter_ite_ne _ l1 (by simp : ¬ events.Event_KeyDown =
        events.Event_DoubleClick),
      filter_ite_ne _ l1 (by simp : ¬ events.Event_KeyUp =
        events.Event_DoubleClick),
      filter_ite_ne _ l2 (by simp : ¬ events.Event_KeyDown =
        events.Event_DoubleClick),
      filter_ite_ne _ l2 (by simp : ¬ events.Event_KeyUp =
        events.Event_DoubleClick)]
    simp
  · rw [dblLevelTimeout, hs0, BA1]
    simp only [List.filter_append,
      filter_ite_ne _ l1 (by simp : ¬ events.Event_KeyDown =
        events.Event_KeyPress),
      filter_ite_ne _ l1 (by simp : ¬ events.Event_KeyUp =
        events.Event_KeyPress)]
    simp

/-- Witness for C6: the level in effect at the first KeyUp is 1, the level
at emission time 2; both emissions carry level 1. -/
theorem C6_captured_menu_level_witness :
    (eventEnabledMask (Cfg.mk 167 12 5 21).eventMask .Event_DoubleClick
      = true) ∧
    (eventEnabledMask (Cfg.mk 167 12 5 21).eventMask .Event_KeyPress
      = true) ∧
    (((run ⟨167, 12, 5, 21⟩ s0 (dblLevelWithin 1 2 3)).2.filter
        (fun p => p.1 = .Event_DoubleClick) = [(.Event_DoubleClick, 1)]) ∧
     ((run ⟨167, 12, 5, 21⟩ s0
        (dblLevelTimeout ⟨167, 12, 5, 21⟩ 1 2 3)).2.filter
        (fun p => p.1 = .Event_KeyPress) = [(.Event_KeyPress, 1)])) :=
  ⟨by decide, by decide,
   C6_captured_menu_level ⟨167, 12, 5, 21⟩ 1 2 3 (by decide) (by decide)
     (by decide) (by decide)⟩

end InterruptButton
